import Mathlib

/-!
Verification of the bidirectional appointment synchronization engine of the
centroscs CRM repository: a shallow embedding in Lean 4 of the description
codec (core/google_calendar.py, core/google_import.py), the inbound import
(core/google_import.py), the outbound push (core/google_autopush.py), the
change-tracking trigger (core/signals.py) and the credential refresher
(core/google_calendar.py), together with theorems settling the stated
properties of those components.

Modelling conventions:
* Python strings are `List Char` (`Str`); Python string helpers (strip,
  lower, splitlines, find, replace, endswith) are re-implemented with their
  CPython semantics restricted to ASCII, which covers every string the
  codec manipulates.
* Python `datetime` values are `PyDateTime`: the wall-clock reading in
  microseconds since the Unix epoch plus an optional UTC offset (`none`
  means a naive datetime).
* The repository's `models.py` predates the sync engine and lacks the sync
  columns; the engine probes for fields at runtime (`_appointment_has_field`,
  `_safe_update`).  We embed the schema the sync engine is written for
  (spec section 3: sync_state, sync_error, google_event_id, google_etag,
  last_synced_at present), so every field probe evaluates on that schema.
* Database queryset operations become pure transformations of an explicit
  `Db` record; network and OAuth side effects are abstracted as `Except`
  valued parameters.  `list_events_for_range` is imported by
  core/google_import.py but defined nowhere in the repository; the import
  loop is therefore parameterised by the fetched event list.
-/

/-- Python strings, as lists of characters. -/
abbrev Str := List Char

/-- Shorthand for writing `Str` literals. -/
def str (s : String) : Str := s.toList

/-- CPython whitespace set used by `str.strip` and the regex class `\s`
(ASCII part: tab, LF, VT, FF, CR, space). -/
def pyIsSpace (c : Char) : Bool :=
  c.toNat = 9 || c.toNat = 10 || c.toNat = 11 || c.toNat = 12 ||
    c.toNat = 13 || c.toNat = 32

/-- `str.lstrip()`. -/
def pyLStrip (s : Str) : Str := s.dropWhile pyIsSpace

/-- `str.rstrip()`. -/
def pyRStrip (s : Str) : Str := (s.reverse.dropWhile pyIsSpace).reverse

/-- `str.strip()`. -/
def pyStrip (s : Str) : Str := pyRStrip (pyLStrip s)

/-- ASCII lower-casing of one character, as CPython `str.lower` acts on
ASCII input. -/
def pyLowerChar (c : Char) : Char :=
  if 65 ≤ c.toNat ∧ c.toNat ≤ 90 then Char.ofNat (c.toNat + 32) else c

/-- `str.lower()` (ASCII fragment). -/
def pyLower (s : Str) : Str := s.map pyLowerChar

/-- Boolean prefix test on character lists. -/
def isPre : Str → Str → Bool
  | [], _ => true
  | _ :: _, [] => false
  | a :: as, b :: bs => a = b && isPre as bs

/-- `needle` occurs in `hay` starting at index `i`. -/
def occursAt (needle hay : Str) (i : Nat) : Prop :=
  isPre needle (hay.drop i) = true

instance (needle hay : Str) (i : Nat) : Decidable (occursAt needle hay i) := by
  unfold occursAt; infer_instance

/-- `str.find(needle)`: index of the first occurrence, `none` when absent
(Python returns -1). -/
def findSub (needle : Str) : Str → Option Nat
  | [] => if isPre needle [] then some 0 else none
  | c :: t =>
    if isPre needle (c :: t) then some 0
    else (findSub needle t).map (· + 1)

/-- `str.endswith(suffix)`. -/
def pyEndsWith (s suffix : Str) : Bool := isPre suffix.reverse s.reverse

/-- Worker for `str.replace`, structurally recursive on a fuel bound (the
input length) so that evaluation is kernel-reducible. -/
def pyReplaceFuel (old new : Str) : Nat → Str → Str
  | _, [] => []
  | 0, s => s
  | fuel + 1, c :: t =>
    if old ≠ [] ∧ isPre old (c :: t) then
      new ++ pyReplaceFuel old new fuel (t.drop (old.length - 1))
    else
      c :: pyReplaceFuel old new fuel t

/-- `str.replace(old, new)` for a non-empty `old`: replace every
non-overlapping occurrence, left to right. -/
def pyReplace (old new s : Str) : Str := pyReplaceFuel old new s.length s

/-- `str.splitlines()` worker; `cur` holds the current line reversed. -/
def pySplitLinesGo (cur : Str) : Str → List Str
  | [] => if cur.isEmpty then [] else [cur.reverse]
  | '\r' :: '\n' :: t => cur.reverse :: pySplitLinesGo [] t
  | '\r' :: t => cur.reverse :: pySplitLinesGo [] t
  | '\n' :: t => cur.reverse :: pySplitLinesGo [] t
  | c :: t => pySplitLinesGo (c :: cur) t

/-- `str.splitlines()` (line breaks `\n`, `\r`, `\r\n`; a trailing break
opens no empty final line). -/
def pySplitLines (s : Str) : List Str := pySplitLinesGo [] s

/-- `c` is a character of the regex class `[a-zA-Z0-9_]`. -/
def isWordChar (c : Char) : Bool :=
  (48 ≤ c.toNat && c.toNat ≤ 57) || (65 ≤ c.toNat && c.toNat ≤ 90) ||
    (97 ≤ c.toNat && c.toNat ≤ 122) || c.toNat = 95

/-- `int(v)` on a string: optional surrounding whitespace, optional sign,
one or more ASCII digits (`None` models `ValueError`). -/
def pyToIntDigits : Str → Option Nat
  | [] => none
  | l => l.foldl (fun acc c => match acc with
      | none => none
      | some n => if c.isDigit then some (n * 10 + (c.toNat - 48)) else none)
      (some 0)

/-- `int(v)` for the `appointment_id=` line. -/
def pyToInt (s : Str) : Option Int :=
  let t := pyStrip s
  match t with
  | '+' :: rest => (pyToIntDigits rest).map (Int.ofNat)
  | '-' :: rest => (pyToIntDigits rest).map (fun n => -(Int.ofNat n))
  | rest => (pyToIntDigits rest).map (Int.ofNat)

/-! ## Description codec (core/google_import.py, core/google_calendar.py) -/

/-- `CRM_OPEN` / `CRM_BLOCK_START`. -/
def CRM_OPEN : Str := str "[REALESTATE_CRM]"

/-- `CRM_CLOSE` / `CRM_BLOCK_END`. -/
def CRM_CLOSE : Str := str "[/REALESTATE_CRM]"

/-- The `CrmBlock` dataclass of core/google_import.py: the decoded metadata
record, every field optional and defaulting to absent. -/
structure CrmBlock where
  appointment_id : Option Int := none
  property_code : Option Str := none
  property_address : Option Str := none
  agent_email : Option Str := none
  agent_label : Option Str := none
  contact_name : Option Str := none
  contact_email : Option Str := none
  contact_phone : Option Str := none
  deriving DecidableEq

/-- `_extract_crm_block`: the text strictly between the first occurrence of
`CRM_OPEN` and the first occurrence of `CRM_CLOSE`, stripped; `none` when a
marker is missing or the close marker does not come after the open one. -/
def extractCrmBlock (description : Str) : Option Str :=
  if description = [] then none
  else
    match findSub CRM_OPEN description, findSub CRM_CLOSE description with
    | some s, some e =>
      if e ≤ s then none
      else some (pyStrip ((description.drop (s + CRM_OPEN.length)).take
          (e - (s + CRM_OPEN.length))))
    | _, _ => none

/-- The regex `RE_KV = ^\s*([a-zA-Z0-9_]+)\s*=\s*(.*?)\s*$` applied with
`.match`: key is the maximal leading run of word characters after optional
whitespace, which must be followed (after optional whitespace) by a literal
`=`; the value is the remainder with surrounding whitespace removed. -/
def reKvMatch (line : Str) : Option (Str × Str) :=
  let l1 := line.dropWhile pyIsSpace
  let key := l1.takeWhile isWordChar
  if key = [] then none
  else
    match (l1.drop key.length).dropWhile pyIsSpace with
    | '=' :: rest => some (key, pyRStrip (rest.dropWhile pyIsSpace))
    | _ => none

/-- One recognized-key assignment of `_parse_crm_block` (the `elif` chain);
unrecognized keys leave the record unchanged, a non-numeric
`appointment_id` is swallowed by the `try/except`. -/
def applyKV (out : CrmBlock) (k v : Str) : CrmBlock :=
  if k = str "appointment_id" then
    match pyToInt v with
    | some n => { out with appointment_id := some n }
    | none => out
  else if k = str "property_code" then { out with property_code := some v }
  else if k = str "property_address" then { out with property_address := some v }
  else if k = str "agent_email" then { out with agent_email := some (pyLower v) }
  else if k = str "agent_label" then { out with agent_label := some v }
  else if k = str "contact_name" then { out with contact_name := some v }
  else if k = str "contact_email" then { out with contact_email := some (pyLower v) }
  else if k = str "contact_phone" then { out with contact_phone := some v }
  else out

/-- One iteration of the line loop of `_parse_crm_block`. -/
def parseLine (out : CrmBlock) (rawLine : Str) : CrmBlock :=
  let line := pyStrip rawLine
  if line = [] then out
  else
    match reKvMatch line with
    | none => out
    | some (k, v) => applyKV out (pyStrip k) (pyStrip v)

/-- `_parse_crm_block`: decode the metadata block of a description into a
`CrmBlock`; a missing or empty block yields the all-absent record. -/
def parseCrmBlock (description : Str) : CrmBlock :=
  match extractCrmBlock description with
  | none => {}
  | some block =>
    if block = [] then {} else (pySplitLines block).foldl parseLine {}

/-- `_compose_google_description` of core/google_calendar.py: human text on
top, technical CRM block below.  Note the block carries a single
`agent=<email>` line (when the email is non-empty) and nothing else. -/
def composeGoogleDescription (userText : Str) (agentEmail : Str) : Str :=
  let u := pyStrip userText
  let meta := if agentEmail = [] then [] else pyStrip (str "agent=" ++ agentEmail)
  let crmBlock :=
    if meta ≠ [] then CRM_OPEN ++ '\n' :: (meta ++ '\n' :: CRM_CLOSE)
    else CRM_OPEN ++ '\n' :: CRM_CLOSE
  if u ≠ [] then pyStrip (u ++ str "\n\n" ++ crmBlock)
  else pyStrip (str "RealEstate CRM\n\n" ++ crmBlock)

/-! ## Python datetimes (shallow model)

A `datetime` value is its wall-clock reading in microseconds since the Unix
epoch (`naiveUs`, the value of the fields as if they were UTC) together
with its `utcoffset` in microseconds (`none` for a naive datetime).
`astimezone(utc)` rebases the wall clock by the offset,
`replace(tzinfo=...)` only changes the offset, and comparisons between two
naive (or two UTC) datetimes compare `naiveUs`. -/

structure PyDateTime where
  naiveUs : Int
  tzOffsetUs : Option Int := none
  deriving DecidableEq

/-- `dt.astimezone(dt_timezone.utc)` for an aware datetime (the sync engine
never applies it to a naive one; on a naive input we keep the value). -/
def astimezoneUtc (dt : PyDateTime) : PyDateTime :=
  match dt.tzOffsetUs with
  | some off => { naiveUs := dt.naiveUs - off, tzOffsetUs := some 0 }
  | none => dt

/-- `timezone.is_aware(dt)`. -/
def isAware (dt : PyDateTime) : Bool := dt.tzOffsetUs.isSome

/-- `_dt_utc_naive` of core/google_import.py: normalize an optional
datetime to naive UTC for comparisons (`None` passes through). -/
def dtUtcNaive : Option PyDateTime → Option PyDateTime
  | none => none
  | some dt =>
    if isAware dt then
      some { naiveUs := dt.naiveUs - dt.tzOffsetUs.getD 0, tzOffsetUs := none }
    else some dt

/-- Read exactly `n` ASCII digits, big-endian, returning the value and the
rest of the input. -/
def readDigitsAux : Nat → Nat → Str → Option (Nat × Str)
  | 0, acc, s => some (acc, s)
  | _ + 1, _, [] => none
  | n + 1, acc, c :: t =>
    if c.isDigit then readDigitsAux n (acc * 10 + (c.toNat - 48)) t else none

/-- Read exactly `n` ASCII digits. -/
def readNDigits (n : Nat) (s : Str) : Option (Nat × Str) := readDigitsAux n 0 s

/-- Gregorian leap year. -/
def isLeapYear (y : Nat) : Bool := (y % 4 = 0 && y % 100 ≠ 0) || y % 400 = 0

/-- Days in a month. -/
def daysInMonth (y m : Nat) : Nat :=
  if m = 2 then (if isLeapYear y then 29 else 28)
  else if m = 4 ∨ m = 6 ∨ m = 9 ∨ m = 11 then 30 else 31

/-- Days from 1970-01-01 to year `y`, month `m`, day `d` (proleptic
Gregorian, `y ≥ 1`); the standard civil-from-days formula. -/
def daysFromCivil (y m d : Nat) : Int :=
  let y' := y - (if m ≤ 2 then 1 else 0)
  let mp := if 3 ≤ m then m - 3 else m + 9
  let days := y' * 365 + y' / 4 + y' / 400 + (153 * mp + 2) / 5 + (d - 1) - y' / 100
  (days : Int) - 719468

/-- Microseconds since epoch of a wall-clock reading. -/
def usOfDateTime (y m d h mi s us : Nat) : Int :=
  daysFromCivil y m d * 86400000000 +
    (((h * 3600 + mi * 60 + s) * 1000000 + us : Nat) : Int)

/-- Fractional-second digits after `.` or `,`: one to six digits, scaled to
microseconds. -/
def readFrac (s : Str) : Option (Nat × Str) :=
  let ds := s.takeWhile Char.isDigit
  if ds = [] ∨ 6 < ds.length then none
  else
    match readNDigits ds.length s with
    | some (v, r) => some (v * 10 ^ (6 - ds.length), r)
    | none => none

/-- `HH[:MM[:SS[.ffffff]]]` as accepted by `datetime.fromisoformat`. -/
def readTime (s : Str) : Option (Nat × Nat × Nat × Nat × Str) :=
  match readNDigits 2 s with
  | none => none
  | some (h, r1) =>
    let (mi, r2) :=
      match r1 with
      | ':' :: t => match readNDigits 2 t with
        | some (mi, r) => (some mi, r)
        | none => (none, r1)
      | _ => (some 0, r1)
    match mi with
    | none => none
    | some mi =>
      let (s', r3) :=
        match r2 with
        | ':' :: t => match readNDigits 2 t with
          | some (sec, r) => (some sec, r)
          | none => (none, r2)
        | _ => (some 0, r2)
      match s' with
      | none => none
      | some sec =>
        let (us, r4) :=
          match r3 with
          | '.' :: t => match readFrac t with
            | some (us, r) => (some us, r)
            | none => (none, r3)
          | ',' :: t => match readFrac t with
            | some (us, r) => (some us, r)
            | none => (none, r3)
          | _ => (some 0, r3)
        match us with
        | none => none
        | some us =>
          if h ≤ 23 ∧ mi ≤ 59 ∧ sec ≤ 59 then some (h, mi, sec, us, r4) else none

/-- UTC offset suffix: nothing (naive), `Z`, or `±HH:MM[:SS]`; returns the
offset in microseconds. -/
def readOffset (s : Str) : Option (Option Int) :=
  match s with
  | [] => some none
  | ['Z'] => some (some 0)
  | sign :: t =>
    if sign = '+' ∨ sign = '-' then
      match readNDigits 2 t with
      | none => none
      | some (oh, r1) =>
        match r1 with
        | ':' :: t2 =>
          match readNDigits 2 t2 with
          | none => none
          | some (om, r2) =>
            let (os, r3) :=
              match r2 with
              | ':' :: t3 => match readNDigits 2 t3 with
                | some (os, r) => (some os, r)
                | none => (none, r2)
              | _ => (some 0, r2)
            match os with
            | none => none
            | some os =>
              if r3 = [] ∧ oh ≤ 23 ∧ om ≤ 59 ∧ os ≤ 59 then
                let v : Int := ((oh * 3600 + om * 60 + os) * 1000000 : Nat)
                some (some (if sign = '-' then -v else v))
              else none
        | _ => none
    else none

/-- Validity checks and the optional time-and-offset part of
`datetime.fromisoformat`, after the `YYYY-MM-DD` date has been read. -/
def pyFromIsoTail (y m d : Nat) (r5 : Str) : Option PyDateTime :=
  if 1 ≤ y ∧ 1 ≤ m ∧ m ≤ 12 ∧ 1 ≤ d ∧ d ≤ daysInMonth y m then
    match r5 with
    | [] => some { naiveUs := usOfDateTime y m d 0 0 0 0 }
    | _sep :: tr =>
      match readTime tr with
      | none => none
      | some (h, mi, sec, us, r6) =>
        match readOffset r6 with
        | none => none
        | some off =>
          some { naiveUs := usOfDateTime y m d h mi sec us, tzOffsetUs := off }
  else none

/-- `datetime.fromisoformat` (CPython 3.11 extended format, the shapes the
calendar service emits): `YYYY-MM-DD`, optionally followed by a one-char
separator, a time, and a UTC offset.  `none` models `ValueError`. -/
def pyFromIso (s : Str) : Option PyDateTime :=
  match readNDigits 4 s with
  | some (y, '-' :: r2) =>
    match readNDigits 2 r2 with
    | some (m, '-' :: r4) =>
      match readNDigits 2 r4 with
      | some (d, r5) => pyFromIsoTail y m d r5
      | none => none
    | _ => none
  | _ => none

/-! ## Google events and the conflict resolver (core/google_import.py) -/

/-- A Google calendar event as the import consumes it: the dict fields
`id`, `summary`, `description`, `location`, `updated`, and the
`start`/`end` sub-dicts flattened to their `dateTime`/`date` members
(`none` models an absent key, `some []` an empty string). -/
structure GEvent where
  id : Option Str := none
  summary : Option Str := none
  description : Option Str := none
  location : Option Str := none
  startDateTime : Option Str := none
  startDate : Option Str := none
  endDateTime : Option Str := none
  endDate : Option Str := none
  updated : Option Str := none
  etag : Option Str := none
  deriving DecidableEq

/-- Python `a or b` on optional strings: `a` unless it is `None` or empty. -/
def pyOr (a b : Option Str) : Option Str :=
  match a with
  | some s => if s = [] then b else some s
  | none => b

/-- `_google_updated_from_event`: parse the RFC3339 `updated` stamp (with
the `Z` to `+00:00` rewrite) and normalize it to naive UTC; `none` on a
missing or unparsable stamp. -/
def googleUpdatedFromEvent (ev : GEvent) : Option PyDateTime :=
  match ev.updated with
  | none => none
  | some upd =>
    if upd = [] then none
    else
      let u2 := if pyEndsWith upd (str "Z") then pyReplace (str "Z") (str "+00:00") upd
                else upd
      match pyFromIso u2 with
      | none => none
      | some dt => dtUtcNaive (some dt)

/-- The `parse_iso` closure of `import_agent_calendar`: a `dateTime` value
(contains `T`) becomes an aware UTC instant (naive readings are taken as
UTC); a date-only value becomes midnight UTC; failures and absent input
yield `none`. -/
def parseIso (s : Option Str) : Option PyDateTime :=
  match s with
  | none => none
  | some s =>
    if s = [] then none
    else if s.contains 'T' then
      if pyEndsWith s (str "Z") then
        match pyFromIso (pyReplace (str "Z") (str "+00:00") s) with
        | some dt => some (astimezoneUtc dt)
        | none => none
      else
        match pyFromIso s with
        | some dt =>
          some (astimezoneUtc (if isAware dt then dt else { dt with tzOffsetUs := some 0 }))
        | none => none
    else
      match pyFromIso s with
      | some d => some { d with tzOffsetUs := some 0 }
      | none => none

/-- The local appointment record, with the synchronization columns the
sync engine is written against (spec section 3). -/
structure Appointment where
  id : Nat
  title : Str := []
  start : Option PyDateTime := none
  end_ : Option PyDateTime := none
  location : Str := []
  notes : Str := []
  agentId : Option Nat := none
  contactId : Option Nat := none
  propertyId : Option Nat := none
  google_event_id : Str := []
  google_etag : Str := []
  sync_state : Str := str "local"
  sync_error : Str := []
  last_synced_at : Option PyDateTime := none
  updated_at : Option PyDateTime := none
  deriving DecidableEq

/-- `_should_take_google`: overwrite the CRM copy with the Google copy only
when the CRM copy is not `local` and both modification stamps are known and
the Google one is strictly newer. -/
def shouldTakeGoogle (ev : GEvent) (appt : Appointment) : Bool :=
  if appt.sync_state = str "local" then false
  else
    match googleUpdatedFromEvent ev, dtUtcNaive appt.updated_at with
    | some g, some c => decide (c.naiveUs < g.naiveUs)
    | _, _ => false

/-! ## Local entity stores and upserts (core/models.py, core/google_import.py) -/

/-- The `Agent` row (the fields the sync engine touches). -/
structure Agent where
  id : Nat
  name : Str := []
  email : Str := []
  google_color_id : Str := []
  deriving DecidableEq

/-- The `Property` row (the fields the sync engine touches). -/
structure Property where
  id : Nat
  code : Str := []
  title : Str := []
  address : Str := []
  city : Str := []
  deriving DecidableEq

/-- The `Contact` row (the fields the sync engine touches). -/
structure Contact where
  id : Nat
  full_name : Str := []
  email : Str := []
  phone : Str := []
  deriving DecidableEq

/-- The relational store, with a shared primary-key sequence. -/
structure Db where
  agents : List Agent := []
  properties : List Property := []
  contacts : List Contact := []
  appointments : List Appointment := []
  nextId : Nat := 1
  deriving DecidableEq

/-- Ambient values of one import run: `timezone.now()` and its
`%Y%m%d%H%M%S` rendering used for synthetic property codes. -/
structure Env where
  now : PyDateTime
  nowStamp : Str := []
  deriving DecidableEq

/-- `_ensure_agent`: normalize the email (strip, lower) and
`get_or_create` by it; `none` models the `ValueError` raised when the
email is empty.  A created agent is named after the email's local part. -/
def ensureAgent (email : Str) (db : Db) : Option (Agent × Db) :=
  let e := pyLower (pyStrip email)
  if e = [] then none
  else
    match db.agents.find? (fun a => decide (a.email = e)) with
    | some a => some (a, db)
    | none =>
      let a : Agent := { id := db.nextId, name := e.takeWhile (· ≠ '@'), email := e }
      some (a, { db with agents := db.agents ++ [a], nextId := db.nextId + 1 })

/-- The `get_or_create(code=...)` step of `_ensure_property` (a created
property defaults its address to the address or the code, and its title to
the code). -/
def propertyGetOrCreate (c a : Str) (db : Db) : Property × Db :=
  match db.properties.find? (fun p => decide (p.code = c)) with
  | some p => (p, db)
  | none =>
    let p : Property :=
      { id := db.nextId, code := c, title := c,
        address := if a = [] then c else a }
    (p, { db with properties := db.properties ++ [p], nextId := db.nextId + 1 })

/-- `_ensure_property`: `get_or_create` by business code (a timestamp-based
`IMM-` code is synthesized when absent), then patch the address when a
non-empty, different one arrived. -/
def ensureProperty (code address : Option Str) (env : Env) (db : Db) :
    Property × Db :=
  let c0 := pyStrip (code.getD [])
  let a := pyStrip (address.getD [])
  let c := if c0 = [] then str "IMM-" ++ env.nowStamp else c0
  let pr := propertyGetOrCreate c a db
  if a ≠ [] ∧ pr.1.address ≠ a then
    let p' := { pr.1 with address := a }
    (p', { pr.2 with
           properties := pr.2.properties.map (fun q => if q.id = pr.1.id then p' else q) })
  else pr

/-- The `get_or_create` step of `_ensure_contact`: keyed by email when
present, else by (full name or the `Contatto` placeholder, phone). -/
def contactGetOrCreate (n e p : Str) (db : Db) : Contact × Db :=
  if e ≠ [] then
    match db.contacts.find? (fun c => decide (c.email = e)) with
    | some c => (c, db)
    | none =>
      let c : Contact :=
        { id := db.nextId, full_name := if n = [] then e else n,
          email := e, phone := p }
      (c, { db with contacts := db.contacts ++ [c], nextId := db.nextId + 1 })
  else
    let key := if n = [] then str "Contatto" else n
    match db.contacts.find? (fun c => decide (c.full_name = key ∧ c.phone = p)) with
    | some c => (c, db)
    | none =>
      let c : Contact := { id := db.nextId, full_name := key, phone := p }
      (c, { db with contacts := db.contacts ++ [c], nextId := db.nextId + 1 })

/-- The field-patch step of `_ensure_contact`: write each newly arrived,
differing, non-empty field. -/
def contactPatch (n e p : Str) (c : Contact) : Contact :=
  let c1 := if n ≠ [] ∧ c.full_name ≠ n then { c with full_name := n } else c
  let c2 := if p ≠ [] ∧ c1.phone ≠ p then { c1 with phone := p } else c1
  if e ≠ [] ∧ c2.email ≠ e then { c2 with email := e } else c2

/-- `_ensure_contact`: nothing to do when name, email and phone are all
blank; otherwise `get_or_create`, then persist the patched fields when any
changed. -/
def ensureContact (name email phone : Option Str) (db : Db) :
    Option Contact × Db :=
  let n := pyStrip (name.getD [])
  let e := pyLower (pyStrip (email.getD []))
  let p := pyStrip (phone.getD [])
  if n = [] ∧ e = [] ∧ p = [] then (none, db)
  else
    let cd := contactGetOrCreate n e p db
    let c3 := contactPatch n e p cd.1
    if c3 ≠ cd.1 then
      (some c3, { cd.2 with
                  contacts := cd.2.contacts.map (fun q => if q.id = cd.1.id then c3 else q) })
    else (some cd.1, cd.2)

/-! ## Change-tracking trigger (core/signals.py) -/

/-- The concrete fields of the modelled `Appointment` schema (the one the
sync engine probes for with `_appointment_has_field` /
`_concrete_field_names`). -/
def appointmentFields : List Str :=
  [str "id", str "title", str "start", str "end", str "location",
   str "notes", str "agent", str "contact", str "property",
   str "google_event_id", str "google_etag", str "sync_state",
   str "sync_error", str "last_synced_at", str "created_at",
   str "updated_at"]

/-- `_appointment_has_field` / membership in `_concrete_field_names`. -/
def appointmentHasField (n : Str) : Bool :=
  appointmentFields.contains n

/-- The `post_save` receiver `appointment_mark_local_on_change` of
core/signals.py, as the net effect on the saved row: when the schema has a
`sync_state` field and its value is not already `local`, it is set to
`local` and `last_synced_at` is cleared (the receiver's own nested save
re-fires the receiver, which then finds `local` and stops).  Note the
receiver consults no suppression flag. -/
def markLocalOnChange (a : Appointment) : Appointment :=
  if ¬ appointmentHasField (str "sync_state") then a
  else if a.sync_state ≠ str "local" then
    { a with sync_state := str "local",
             last_synced_at :=
               if appointmentHasField (str "last_synced_at") then none
               else a.last_synced_at }
  else a

/-- A full `appt.save()`: the `auto_now` column `updated_at` is stamped,
then the `post_save` receiver runs on the saved row. -/
def djangoSave (now : PyDateTime) (a : Appointment) : Appointment :=
  markLocalOnChange { a with updated_at := some now }

/-! ## Inbound import (core/google_import.py, import_agent_calendar) -/

/-- The counters returned by `import_agent_calendar`. -/
structure ImportCounts where
  created : Nat := 0
  updated : Nat := 0
  skipped : Nat := 0
  deriving DecidableEq

/-- `skipped += 1`. -/
def bumpSkipped (c : ImportCounts) : ImportCounts :=
  { c with skipped := c.skipped + 1 }

/-- `ev_start.get("dateTime") or ev_start.get("date")`, parsed. -/
def eventStartDt (ev : GEvent) : Option PyDateTime :=
  parseIso (pyOr ev.startDateTime ev.startDate)

/-- `ev_end.get("dateTime") or ev_end.get("date")`, parsed. -/
def eventEndDt (ev : GEvent) : Option PyDateTime :=
  parseIso (pyOr ev.endDateTime ev.endDate)

/-- `(ev.get("summary") or "").strip() or "Appuntamento"`. -/
def eventTitle (ev : GEvent) : Str :=
  let t := pyStrip (ev.summary.getD [])
  if t = [] then str "Appuntamento" else t

/-- `Appointment.objects.filter(google_event_id=google_event_id).first()`:
first list entry whose `google_event_id` equals the event's id (an absent
event id matches no row of the non-null column). -/
def findApptByEventId (appts : List Appointment) (evId : Option Str) :
    Option Appointment :=
  appts.find? (fun a => decide (evId = some a.google_event_id))

/-- One iteration of the event loop of `import_agent_calendar`: gate on the
presence of both CRM markers, decode the block, resolve agent (skip when
absent), upsert property and contact, parse start/end (skip when either is
missing), then match by `google_event_id` and create / skip (`local` wins,
or Google not newer) / overwrite. -/
def stepEvent (env : Env) (st : Db × ImportCounts) (ev : GEvent) :
    Db × ImportCounts :=
  let db := st.1
  let cnt := st.2
  let desc := ev.description.getD []
  if findSub CRM_OPEN desc = none ∨ findSub CRM_CLOSE desc = none then
    (db, bumpSkipped cnt)
  else
    let crm := parseCrmBlock desc
    match ensureAgent (crm.agent_email.getD []) db with
    | none => (db, bumpSkipped cnt)
    | some (evAgent, db1) =>
      let (prop, db2) := ensureProperty crm.property_code crm.property_address env db1
      let (contact, db3) := ensureContact crm.contact_name crm.contact_email crm.contact_phone db2
      match eventStartDt ev, eventEndDt ev with
      | none, _ => (db3, bumpSkipped cnt)
      | some _, none => (db3, bumpSkipped cnt)
      | some sdt, some edt =>
        match findApptByEventId db3.appointments ev.id with
        | none =>
          let appt : Appointment :=
            { id := db3.nextId, title := eventTitle ev,
              start := some sdt, end_ := some edt,
              location := pyStrip (ev.location.getD []),
              agentId := some evAgent.id, contactId := contact.map (·.id),
              propertyId := some prop.id,
              google_event_id := ev.id.getD [],
              sync_state := str "synced", last_synced_at := some env.now }
          let stored := djangoSave env.now appt
          ({ db3 with appointments := db3.appointments ++ [stored],
                      nextId := db3.nextId + 1 },
           { cnt with created := cnt.created + 1 })
        | some appt =>
          if appt.sync_state = str "local" then (db3, bumpSkipped cnt)
          else if shouldTakeGoogle ev appt then
            let appt' :=
              { appt with agentId := some evAgent.id,
                          propertyId := some prop.id,
                          contactId := contact.map (·.id),
                          title := eventTitle ev,
                          location := pyStrip (ev.location.getD []),
                          start := some sdt, end_ := some edt,
                          sync_state := str "synced",
                          last_synced_at := some env.now }
            let stored := djangoSave env.now appt'
            ({ db3 with appointments :=
                 db3.appointments.map (fun a => if a.id = appt.id then stored else a) },
             { cnt with updated := cnt.updated + 1 })
          else (db3, bumpSkipped cnt)

/-- The result dict of `import_agent_calendar`. -/
structure ImportResult where
  agentEmail : Str
  created : Nat
  updated : Nat
  skipped : Nat
  deriving DecidableEq

/-- `import_agent_calendar`, parameterised by the events that
`list_events_for_range` returned for the window (the fetch itself is not
part of the repository's sources). -/
def importAgentCalendar (env : Env) (agent : Agent) (events : List GEvent)
    (db : Db) : Db × ImportResult :=
  let res := events.foldl (stepEvent env) (db, {})
  (res.1, { agentEmail := agent.email, created := res.2.created,
            updated := res.2.updated, skipped := res.2.skipped })

/-! ## Outbound push (core/google_autopush.py, core/google_calendar.py) -/

/-- `x or ""` on an optional string field of an event dict. -/
def pyOrEmpty (a : Option Str) : Str :=
  (pyOr a none).getD []

/-- The keyword arguments of one `_safe_update` call: `none` means the
argument was not passed. -/
structure ApptUpdate where
  sync_state : Option Str := none
  sync_error : Option Str := none
  last_synced_at : Option (Option PyDateTime) := none
  google_event_id : Option Str := none
  google_etag : Option Str := none
  deriving DecidableEq

/-- Apply one passed argument, gated by the schema probe (mirrors the
`k in existing` filter of `_safe_update`). -/
def applyUpdate (u : ApptUpdate) (a : Appointment) : Appointment :=
  let a := match u.sync_state with
    | some v => if appointmentHasField (str "sync_state") then { a with sync_state := v } else a
    | none => a
  let a := match u.sync_error with
    | some v => if appointmentHasField (str "sync_error") then { a with sync_error := v } else a
    | none => a
  let a := match u.last_synced_at with
    | some v => if appointmentHasField (str "last_synced_at") then { a with last_synced_at := v } else a
    | none => a
  let a := match u.google_event_id with
    | some v => if appointmentHasField (str "google_event_id") then { a with google_event_id := v } else a
    | none => a
  match u.google_etag with
  | some v => if appointmentHasField (str "google_etag") then { a with google_etag := v } else a
  | none => a

/-- `_safe_update` / `_safe_update_appointment`: a queryset `.update(...)`
on the row with the given primary key — no signals fire. -/
def safeUpdate (db : Db) (pk : Nat) (u : ApptUpdate) : Db :=
  { db with appointments :=
      db.appointments.map (fun a => if a.id = pk then applyUpdate u a else a) }

/-- The external effects of one push: acquiring the team service (OAuth
and configuration, `creds`) and the insert/patch network call (`net`,
applied to the appointment snapshot being pushed).  An `error` value
models the raised exception's message. -/
structure PushEnv where
  creds : Except Str Unit
  net : Appointment → Except Str GEvent

/-- The fallible part of `upsert_event_for_appointment`: the service
acquisition, then the fail-fast guard on missing start/end, then the
insert/patch call. -/
def pushOutcome (penv : PushEnv) (appt : Appointment) : Except Str GEvent :=
  match penv.creds with
  | .error e => .error e
  | .ok _ =>
    match appt.start, appt.end_ with
    | some _, some _ => penv.net appt
    | _, _ => .error (str "Appointment senza start/end: non posso pushare su Google.")

/-- `upsert_event_for_appointment`: on success, `_safe_update_appointment`
records the returned event id, the etag, `last_synced_at = now`,
`sync_state = synced` and clears `sync_error`; failures propagate to the
caller. -/
def upsertEventForAppointment (penv : PushEnv) (now : PyDateTime) (db : Db)
    (appt : Appointment) : Except Str (GEvent × Db) :=
  match pushOutcome penv appt with
  | .error e => .error e
  | .ok ev =>
    .ok (ev, safeUpdate db appt.id
      { google_event_id := some ((pyOr ev.id (some appt.google_event_id)).getD []),
        google_etag := some (pyOrEmpty ev.etag),
        last_synced_at := some (some now),
        sync_state := some (str "synced"),
        sync_error := some [] })

/-- The counters returned by `push_local_appointments`. -/
structure PushCounts where
  checked : Nat := 0
  pushed : Nat := 0
  errors : Nat := 0
  deriving DecidableEq

/-- The `order_by("id")` ordering on appointments. -/
def apptLe (a b : Appointment) : Prop := a.id ≤ b.id

instance : DecidableRel apptLe := fun a b => Nat.decLe a.id b.id

instance : IsTotal Appointment apptLe :=
  ⟨fun a b => Nat.le_total a.id b.id⟩

instance : IsTrans Appointment apptLe :=
  ⟨fun _ _ _ h1 h2 => Nat.le_trans h1 h2⟩

/-- The batch selected by `push_local_appointments`:
`filter(sync_state="local").order_by("id")[:limit]`. -/
def pushSelection (limit : Nat) (db : Db) : List Appointment :=
  (List.insertionSort apptLe
      (db.appointments.filter (fun a => decide (a.sync_state = str "local")))).take limit

/-- The `for appt in qs[:limit]` loop of `push_local_appointments`: count
the item, try the upsert; on success mark it synced and count it pushed;
on any exception mark it `error` with the message under a `PUSH ERROR: `
prefix, stamp `last_synced_at`, count the error, and continue. -/
def pushLoop (penv : PushEnv) (now : PyDateTime) :
    Db × PushCounts → List Appointment → Db × PushCounts
  | st, [] => st
  | (db, c), appt :: rest =>
    let c := { c with checked := c.checked + 1 }
    match upsertEventForAppointment penv now db appt with
    | .ok (ev, db') =>
      let db'' := safeUpdate db' appt.id
        { sync_state := some (str "synced"),
          sync_error := some [],
          last_synced_at := some (some now),
          google_event_id := some ((pyOr ev.id (some appt.google_event_id)).getD []),
          google_etag := some ((pyOr ev.etag (some appt.google_etag)).getD []) }
      pushLoop penv now (db'', { c with pushed := c.pushed + 1 }) rest
    | .error msg =>
      let db' := safeUpdate db appt.id
        { sync_state := some (str "error"),
          sync_error := some (str "PUSH ERROR: " ++ msg),
          last_synced_at := some (some now) }
      pushLoop penv now (db', { c with errors := c.errors + 1 }) rest

/-- `push_local_appointments(limit=...)`. -/
def pushLocalAppointments (penv : PushEnv) (now : PyDateTime) (limit : Nat)
    (db : Db) : Db × PushCounts :=
  pushLoop penv now (db, {}) (pushSelection limit db)

/-! ## Credential store and refresher (core/google_calendar.py) -/

/-- The shared `GoogleAccount` credential row, with the token columns the
sync engine reads and writes (empty string means absent). -/
structure GoogleAccountRec where
  email : Str := []
  access_token : Str := []
  refresh_token : Str := []
  token_uri : Str := []
  client_id : Str := []
  client_secret : Str := []
  token_expiry : Option PyDateTime := none
  deriving DecidableEq

/-- The Django settings consulted by the refresher. -/
structure SyncSettings where
  GOOGLE_TOKEN_URI : Str := []
  deriving DecidableEq

/-- A `google.oauth2.credentials.Credentials` object as the refresher uses
it: token material plus the naive-UTC expiry. -/
structure Credentials where
  token : Option Str := none
  refresh_token : Option Str := none
  token_uri : Str := []
  client_id : Str := []
  client_secret : Str := []
  expiry : Option PyDateTime := none
  deriving DecidableEq

/-- The errors the refresher can raise, one constructor per `raise` site
(plus the refresh network call). -/
inductive CredError where
  | notRefreshableCreds
  | tokenNotRefreshable
  | refreshFailed (msg : Str)
  deriving DecidableEq

/-- The two `RuntimeError`s the spec calls `NotRefreshable`. -/
def CredError.isNotRefreshable : CredError → Bool
  | .notRefreshableCreds => true
  | .tokenNotRefreshable => true
  | .refreshFailed _ => false

/-- `_expiry_db_to_creds`: aware UTC in the store, naive UTC for
google-auth. -/
def expiryDbToCreds : Option PyDateTime → Option PyDateTime
  | none => none
  | some e =>
    if isAware e then
      some { naiveUs := e.naiveUs - e.tzOffsetUs.getD 0, tzOffsetUs := none }
    else some e

/-- `_expiry_creds_to_db`: naive UTC from google-auth, aware UTC in the
store. -/
def expiryCredsToDb : Option PyDateTime → Option PyDateTime
  | none => none
  | some e =>
    if ¬ isAware e then some { e with tzOffsetUs := some 0 } else some e

/-- `google.auth`'s clock skew allowance (10 seconds), in microseconds. -/
def clockSkewUs : Int := 10000000

/-- `Credentials.expired` of google-auth: an expiry is set and `utcnow()`
has passed it minus the clock skew; a credential without expiry never
counts as expired. -/
def Credentials.expired (c : Credentials) (nowUs : Int) : Bool :=
  match c.expiry with
  | none => false
  | some e => decide (e.naiveUs - clockSkewUs ≤ nowUs)

/-- `Credentials.valid` of google-auth: a token is present and not
expired. -/
def Credentials.valid (c : Credentials) (nowUs : Int) : Bool :=
  c.token.isSome && !(c.expired nowUs)

/-- The presence check that opens `_creds_from_google_account`:
refresh token, client id, client secret, and a token endpoint (the row's,
or the settings fallback). -/
def refreshConfigPresent (st : SyncSettings) (ga : GoogleAccountRec) : Bool :=
  ga.refresh_token ≠ [] && ga.client_id ≠ [] && ga.client_secret ≠ [] &&
    (ga.token_uri ≠ [] || st.GOOGLE_TOKEN_URI ≠ [])

/-- The `Credentials(...)` constructor call of `_creds_from_google_account`
(an empty access token becomes `None`; the token endpoint falls back to the
settings value). -/
def buildCreds (st : SyncSettings) (ga : GoogleAccountRec) : Credentials :=
  { token := if ga.access_token = [] then none else some ga.access_token,
    refresh_token := some ga.refresh_token,
    token_uri := if ga.token_uri ≠ [] then ga.token_uri else st.GOOGLE_TOKEN_URI,
    client_id := ga.client_id,
    client_secret := ga.client_secret,
    expiry := expiryDbToCreds ga.token_expiry }

/-- `_creds_from_google_account`: raise `NotRefreshable` unless the four
refresh prerequisites are present, else build the google-auth
credentials. -/
def credsFromGoogleAccount (st : SyncSettings) (ga : GoogleAccountRec) :
    Except CredError Credentials :=
  if ¬ refreshConfigPresent st ga then .error .notRefreshableCreds
  else .ok (buildCreds st ga)

/-- `_save_creds_to_google_account`: persist the (possibly refreshed)
access token and expiry back onto the shared row. -/
def saveCredsToGoogleAccount (ga : GoogleAccountRec) (c : Credentials) :
    GoogleAccountRec :=
  { ga with access_token := c.token.getD [],
            token_expiry := expiryCredsToDb c.expiry }

/-- `_ensure_fresh_token`: build credentials from the row (which may
already fail as not-refreshable), return them untouched when valid,
refresh-and-persist when expired with a refresh token, and raise
not-refreshable otherwise.  `refreshFn` abstracts
`creds.refresh(Request())`; its failure is a network error. -/
def ensureFreshToken (st : SyncSettings)
    (refreshFn : Credentials → Except Str Credentials) (nowUs : Int)
    (ga : GoogleAccountRec) : Except CredError (Credentials × GoogleAccountRec) :=
  match credsFromGoogleAccount st ga with
  | .error e => .error e
  | .ok creds =>
    if creds.valid nowUs then .ok (creds, ga)
    else if creds.expired nowUs ∧ creds.refresh_token.isSome then
      match refreshFn creds with
      | .ok creds' => .ok (creds', saveCredsToGoogleAccount ga creds')
      | .error msg => .error (.refreshFailed msg)
    else .error .tokenNotRefreshable

/-- The keys the `elif` chain of `_parse_crm_block` recognizes. -/
def crmRecognizedKeys : List Str :=
  [str "appointment_id", str "property_code", str "property_address",
   str "agent_email", str "agent_label", str "contact_name",
   str "contact_email", str "contact_phone"]

/-- Row lookup by primary key. -/
def lookupAppt (db : Db) (pk : Nat) : Option Appointment :=
  db.appointments.find? (fun a => decide (a.id = pk))

/-- The push of one appointment fails (credential failure, network failure,
or the missing start/end guard). -/
def outcomeFails (penv : PushEnv) (a : Appointment) : Bool :=
  match pushOutcome penv a with
  | .error _ => true
  | .ok _ => false

/-- The refresher result is one of the two `NotRefreshable` errors. -/
def isNotRefreshableResult {α : Type} : Except CredError α → Bool
  | .error e => e.isNotRefreshable
  | .ok _ => false

/-! ## Theorems -/

/-- Claim C3 (confirmed): the conflict resolver returns `true` exactly when
the local copy is not `local`, both modification stamps are available and
parseable, and the external stamp, normalized to naive UTC, is strictly
later than the local one; in every other case (equal stamps, missing or
unparsable stamps) it returns `false`. -/
theorem shouldTakeGoogle_true_iff (ev : GEvent) (appt : Appointment) :
    shouldTakeGoogle ev appt = true ↔
      (appt.sync_state ≠ str "local" ∧
        ∃ g c, googleUpdatedFromEvent ev = some g ∧
          dtUtcNaive appt.updated_at = some c ∧ c.naiveUs < g.naiveUs) := by
  unfold shouldTakeGoogle
  by_cases hs : appt.sync_state = str "local"
  · simp [hs]
  · rw [if_neg hs]
    cases hg : googleUpdatedFromEvent ev with
    | none => simp [hs]
    | some g =>
      cases hc : dtUtcNaive appt.updated_at with
      | none => simp [hs]
      | some c => simp [hs]

/-- Claim C9, counterexample: a description whose metadata block is
delimited but contains no recognizable `key=value` line decodes to the
all-absent record, so "empty exactly when no delimiters are found" fails
in the only-if direction. -/
theorem parseCrmBlock_empty_despite_delims :
    parseCrmBlock (str "[REALESTATE_CRM]\nfoo\n[/REALESTATE_CRM]") = {} ∧
      (findSub CRM_OPEN (str "[REALESTATE_CRM]\nfoo\n[/REALESTATE_CRM]")).isSome = true ∧
      (findSub CRM_CLOSE (str "[REALESTATE_CRM]\nfoo\n[/REALESTATE_CRM]")).isSome = true := by
  decide

/-- Claim C9 (corrected): decoding is total and tolerant — when either
delimiter is absent the result is the all-absent record, a line that does
not match the `key=value` pattern is ignored, and a line with an
unrecognized key is ignored; but a delimited block with no recognized
lines also decodes to the all-absent record (the original only-if
direction is refuted by `parseCrmBlock_empty_despite_delims`). -/
theorem parseCrmBlock_tolerant :
    (∀ d, (findSub CRM_OPEN d = none ∨ findSub CRM_CLOSE d = none) →
        parseCrmBlock d = {}) ∧
    (∀ out line, reKvMatch (pyStrip line) = none → parseLine out line = out) ∧
    (∀ out k v, k ∉ crmRecognizedKeys → applyKV out k v = out) := by
  refine ⟨?_, ?_, ?_⟩
  · intro d h
    unfold parseCrmBlock extractCrmBlock
    by_cases hd : d = []
    · simp [hd]
    · rcases h with h | h
      · simp [hd, h]
      · cases hfo : findSub CRM_OPEN d <;> simp [hd, h]
  · intro out line h
    unfold parseLine
    by_cases hl : pyStrip line = []
    · simp [hl]
    · simp [hl, h]
  · intro out k v hk
    simp only [crmRecognizedKeys, List.mem_cons, List.not_mem_nil, or_false,
      not_or] at hk
    obtain ⟨h1, h2, h3, h4, h5, h6, h7, h8⟩ := hk
    simp [applyKV, h1, h2, h3, h4, h5, h6, h7, h8]

/-- Closed instances of `parseCrmBlock_tolerant`: a markerless string
decodes to the all-absent record, an `=`-less line is ignored, and an
unrecognized key is ignored. -/
theorem parseCrmBlock_tolerant_witness :
    parseCrmBlock (str "ordinary text, no markers") = {} ∧
      parseLine {} (str "no equals sign") = {} ∧
      applyKV {} (str "agent") (str "jane@x.com") = {} :=
  ⟨parseCrmBlock_tolerant.1 _ (by decide),
   parseCrmBlock_tolerant.2.1 _ _ (by decide),
   parseCrmBlock_tolerant.2.2 _ _ _ (by decide)⟩

/-- Claim C2 (code_bug): importing a fresh external event creates the local
appointment with `sync_state = "synced"` and saves it, but the `post_save`
receiver `appointment_mark_local_on_change` never consults the
`_skip_mark_local` flag the import sets, so the stored row comes out with
`sync_state = "local"` and a cleared `last_synced_at` — exactly what the
import's own comment says it wants to prevent. -/
theorem import_save_marks_local :
    ((stepEvent { now := ⟨1768300000000000, some 0⟩, nowStamp := str "20260113120000" }
        ({}, {})
        { id := some (str "g1"),
          summary := some (str "Visita"),
          description := some (str "[REALESTATE_CRM]\nagent_email=jane@x.com\n[/REALESTATE_CRM]"),
          startDateTime := some (str "2026-01-14T10:00:00Z"),
          endDateTime := some (str "2026-01-14T11:00:00Z") }).1.appointments.map
      (·.sync_state)) = [str "local"] ∧
    ((stepEvent { now := ⟨1768300000000000, some 0⟩, nowStamp := str "20260113120000" }
        ({}, {})
        { id := some (str "g1"),
          summary := some (str "Visita"),
          description := some (str "[REALESTATE_CRM]\nagent_email=jane@x.com\n[/REALESTATE_CRM]"),
          startDateTime := some (str "2026-01-14T10:00:00Z"),
          endDateTime := some (str "2026-01-14T11:00:00Z") }).1.appointments.map
      (·.last_synced_at)) = [none] ∧
    (stepEvent { now := ⟨1768300000000000, some 0⟩, nowStamp := str "20260113120000" }
        ({}, {})
        { id := some (str "g1"),
          summary := some (str "Visita"),
          description := some (str "[REALESTATE_CRM]\nagent_email=jane@x.com\n[/REALESTATE_CRM]"),
          startDateTime := some (str "2026-01-14T10:00:00Z"),
          endDateTime := some (str "2026-01-14T11:00:00Z") }).2.created = 1 := by
  decide

/-- Claim C6, counterexample: a credential row holding a perfectly valid
(present, never-expiring) access token but no refresh token makes the
refresher fail with the `NotRefreshable` configuration error instead of
returning the token unchanged, because `_creds_from_google_account` checks
the refresh prerequisites before looking at validity. -/
theorem ensureFreshToken_fails_despite_valid_token :
    ensureFreshToken {} (fun c => Except.ok c) 0 { access_token := str "tok" } =
      .error .notRefreshableCreds ∧
    Credentials.valid { token := some (str "tok") } 0 = true := by
  exact ⟨rfl, rfl⟩

/-- Claim C6 (corrected): the refresher first demands the refresh
prerequisites (refresh token, token endpoint with settings fallback,
client id, client secret) and only then looks at the token, so: with the
prerequisites present and a valid (present, unexpired) access token, the
token is returned unchanged and the row untouched; and the refresher
raises a `NotRefreshable` error exactly when a prerequisite is missing, or
when they are all present but the token is invalid while not counted as
expired. -/
theorem ensureFreshToken_spec :
    (∀ (st : SyncSettings) (refreshFn : Credentials → Except Str Credentials)
        (nowUs : Int) (ga : GoogleAccountRec) (c : Credentials),
        credsFromGoogleAccount st ga = .ok c → c.valid nowUs = true →
        ensureFreshToken st refreshFn nowUs ga = .ok (c, ga) ∧
          c.token = some ga.access_token) ∧
    (∀ (st : SyncSettings) (refreshFn : Credentials → Except Str Credentials)
        (nowUs : Int) (ga : GoogleAccountRec),
        isNotRefreshableResult (ensureFreshToken st refreshFn nowUs ga) = true ↔
          (refreshConfigPresent st ga = false ∨
            ∃ c, credsFromGoogleAccount st ga = .ok c ∧
              c.valid nowUs = false ∧ c.expired nowUs = false)) := by
  have hok : ∀ st ga, refreshConfigPresent st ga = true →
      credsFromGoogleAccount st ga = .ok (buildCreds st ga) := by
    intro st ga h
    unfold credsFromGoogleAccount
    rw [if_neg (by simp [h])]
  have herr : ∀ st ga, refreshConfigPresent st ga = false →
      credsFromGoogleAccount st ga = .error .notRefreshableCreds := by
    intro st ga h
    unfold credsFromGoogleAccount
    rw [if_pos (by simp [h])]
  constructor
  · intro st refreshFn nowUs ga c hc hv
    refine ⟨?_, ?_⟩
    · unfold ensureFreshToken
      rw [hc]
      simp [hv]
    · cases hcfg : refreshConfigPresent st ga with
      | false => rw [herr st ga hcfg] at hc; exact absurd hc (by simp)
      | true =>
        rw [hok st ga hcfg] at hc
        injection hc with hc
        subst hc
        by_cases ht : ga.access_token = []
        · exfalso
          have htok : (buildCreds st ga).token = none := by
            simp [buildCreds, ht]
          simp only [Credentials.valid, htok, Option.isSome_none,
            Bool.false_and] at hv
          exact absurd hv (by simp)
        · simp [buildCreds, ht]
  · intro st refreshFn nowUs ga
    by_cases hcfg : refreshConfigPresent st ga = true
    · have hred : ensureFreshToken st refreshFn nowUs ga =
          (if (buildCreds st ga).valid nowUs then
             Except.ok (buildCreds st ga, ga)
           else if (buildCreds st ga).expired nowUs ∧
               (buildCreds st ga).refresh_token.isSome then
             match refreshFn (buildCreds st ga) with
             | .ok creds' => .ok (creds', saveCredsToGoogleAccount ga creds')
             | .error msg => .error (.refreshFailed msg)
           else .error .tokenNotRefreshable) := by
        unfold ensureFreshToken
        rw [hok st ga hcfg]
      rw [hred]
      by_cases hv : (buildCreds st ga).valid nowUs = true
      · rw [if_pos hv]
        simp only [isNotRefreshableResult]
        constructor
        · intro h; exact absurd h (by simp)
        · rintro (h | ⟨c', hc', hv', _⟩)
          · rw [hcfg] at h; exact absurd h (by simp)
          · rw [hok st ga hcfg] at hc'; injection hc' with hc'; subst hc'
            rw [hv] at hv'; exact absurd hv' (by simp)
      · rw [if_neg hv]
        have hvf : (buildCreds st ga).valid nowUs = false := by
          simp only [Bool.not_eq_true] at hv; exact hv
        have hrt : (buildCreds st ga).refresh_token.isSome = true := rfl
        by_cases he : (buildCreds st ga).expired nowUs = true
        · rw [if_pos ⟨he, hrt⟩]
          have hnone : ∀ r : Except Str Credentials,
              isNotRefreshableResult ((match r with
                | .ok creds' => .ok (creds', saveCredsToGoogleAccount ga creds')
                | .error msg => .error (CredError.refreshFailed msg) :
                  Except CredError (Credentials × GoogleAccountRec))) = false := by
            intro r; cases r <;> rfl
          rw [hnone (refreshFn (buildCreds st ga))]
          constructor
          · intro h; exact absurd h (by simp)
          · rintro (h | ⟨c', hc', _, he'⟩)
            · rw [hcfg] at h; exact absurd h (by simp)
            · rw [hok st ga hcfg] at hc'; injection hc' with hc'; subst hc'
              rw [he] at he'; exact absurd he' (by simp)
        · have hef : (buildCreds st ga).expired nowUs = false := by
            simp only [Bool.not_eq_true] at he; exact he
          rw [if_neg (fun hcon => he hcon.1)]
          simp only [isNotRefreshableResult, CredError.isNotRefreshable]
          constructor
          · intro _
            exact Or.inr ⟨buildCreds st ga, hok st ga hcfg, hvf, hef⟩
          · intro _; trivial
    · have hcfgf : refreshConfigPresent st ga = false := by
        simp only [Bool.not_eq_true] at hcfg; exact hcfg
      have hred : ensureFreshToken st refreshFn nowUs ga =
          .error .notRefreshableCreds := by
        unfold ensureFreshToken
        rw [herr st ga hcfgf]
      rw [hred]
      simp only [isNotRefreshableResult, CredError.isNotRefreshable]
      constructor
      · intro _; exact Or.inl hcfgf
      · intro _; trivial

/-- Closed instance of `ensureFreshToken_spec`: a fully configured row with
a valid token gets it back unchanged. -/
theorem ensureFreshToken_spec_witness :
    ensureFreshToken {} (fun c => Except.ok c) 0
        { access_token := str "tok", refresh_token := str "r",
          token_uri := str "u", client_id := str "i", client_secret := str "s" } =
      .ok (buildCreds {}
            { access_token := str "tok", refresh_token := str "r",
              token_uri := str "u", client_id := str "i", client_secret := str "s" },
          { access_token := str "tok", refresh_token := str "r",
            token_uri := str "u", client_id := str "i", client_secret := str "s" }) :=
  (ensureFreshToken_spec.1 {} (fun c => Except.ok c) 0
    { access_token := str "tok", refresh_token := str "r",
      token_uri := str "u", client_id := str "i", client_secret := str "s" }
    (buildCreds {}
      { access_token := str "tok", refresh_token := str "r",
        token_uri := str "u", client_id := str "i", client_secret := str "s" })
    rfl rfl).1

theorem ensureAgent_appointments (e : Str) (db : Db) (a : Agent) (db' : Db)
    (h : ensureAgent e db = some (a, db')) :
    db'.appointments = db.appointments := by
  simp only [ensureAgent] at h
  split at h
  · exact absurd h (by simp)
  · split at h
    · simp only [Option.some.injEq, Prod.mk.injEq] at h
      rw [← h.2]
    · simp only [Option.some.injEq, Prod.mk.injEq] at h
      rw [← h.2]

theorem propertyGetOrCreate_appointments (c a : Str) (db : Db) :
    ((propertyGetOrCreate c a db).2).appointments = db.appointments := by
  simp only [propertyGetOrCreate]
  split <;> rfl

theorem ensureProperty_appointments (code address : Option Str) (env : Env)
    (db : Db) :
    ((ensureProperty code address env db).2).appointments = db.appointments := by
  simp only [ensureProperty]
  split <;> split <;> exact propertyGetOrCreate_appointments _ _ _

theorem contactGetOrCreate_appointments (n e p : Str) (db : Db) :
    ((contactGetOrCreate n e p db).2).appointments = db.appointments := by
  simp only [contactGetOrCreate]
  split
  · split <;> rfl
  · split <;> rfl

theorem ensureContact_appointments (name email phone : Option Str) (db : Db) :
    ((ensureContact name email phone db).2).appointments = db.appointments := by
  simp only [ensureContact]
  split
  · rfl
  · split <;> exact contactGetOrCreate_appointments _ _ _ _

/-- Claim C4 (confirmed): when the event's id matches a local appointment
whose `sync_state` is `local`, one import step leaves the whole
appointment store untouched (in particular every field of that
appointment) and counts the event as skipped, never as created or
updated — whichever gate the event reaches. -/
theorem import_local_wins (env : Env) (ev : GEvent) (db : Db)
    (cnt : ImportCounts) (appt : Appointment)
    (hmatch : findApptByEventId db.appointments ev.id = some appt)
    (hlocal : appt.sync_state = str "local") :
    (stepEvent env (db, cnt) ev).1.appointments = db.appointments ∧
    (stepEvent env (db, cnt) ev).2 =
      { created := cnt.created, updated := cnt.updated,
        skipped := cnt.skipped + 1 } := by
  simp only [stepEvent]
  by_cases hgate : (findSub CRM_OPEN (ev.description.getD []) = none ∨
      findSub CRM_CLOSE (ev.description.getD []) = none)
  · rw [if_pos hgate]
    exact ⟨rfl, rfl⟩
  · rw [if_neg hgate]
    cases hag : ensureAgent
        ((parseCrmBlock (ev.description.getD [])).agent_email.getD []) db with
    | none => exact ⟨rfl, rfl⟩
    | some pr =>
      obtain ⟨evAgent, db1⟩ := pr
      have hA1 : db1.appointments = db.appointments :=
        ensureAgent_appointments _ _ _ _ hag
      have hA2 : ((ensureProperty (parseCrmBlock (ev.description.getD [])).property_code
          (parseCrmBlock (ev.description.getD [])).property_address env db1).2).appointments =
          db.appointments := by
        rw [ensureProperty_appointments, hA1]
      have hA3 : ((ensureContact (parseCrmBlock (ev.description.getD [])).contact_name
          (parseCrmBlock (ev.description.getD [])).contact_email
          (parseCrmBlock (ev.description.getD [])).contact_phone
          (ensureProperty (parseCrmBlock (ev.description.getD [])).property_code
            (parseCrmBlock (ev.description.getD [])).property_address env db1).2).2).appointments =
          db.appointments := by
        rw [ensureContact_appointments, hA2]
      cases hs : eventStartDt ev with
      | none => exact ⟨hA3, rfl⟩
      | some sdt =>
        cases he : eventEndDt ev with
        | none => exact ⟨hA3, rfl⟩
        | some edt =>
          simp only []
          rw [show findApptByEventId
              ((ensureContact (parseCrmBlock (ev.description.getD [])).contact_name
                (parseCrmBlock (ev.description.getD [])).contact_email
                (parseCrmBlock (ev.description.getD [])).contact_phone
                (ensureProperty (parseCrmBlock (ev.description.getD [])).property_code
                  (parseCrmBlock (ev.description.getD [])).property_address env db1).2).2).appointments
              ev.id = some appt by rw [findApptByEventId] at hmatch ⊢; rw [hA3]; exact hmatch]
          simp only []
          rw [if_pos hlocal]
          exact ⟨hA3, rfl⟩

/-- Closed instance of `import_local_wins`: a `local` appointment matched
by event id survives an import step untouched and is counted skipped. -/
theorem import_local_wins_witness :
    (stepEvent { now := ⟨0, some 0⟩, nowStamp := str "20260101000000" }
        ({ appointments := [{ id := 7, google_event_id := str "g1",
                              sync_state := str "local",
                              title := str "Mine" }], nextId := 10 },
         {})
        { id := some (str "g1"),
          description := some (str "[REALESTATE_CRM]\nagent_email=jane@x.com\n[/REALESTATE_CRM]"),
          startDateTime := some (str "2026-01-14T10:00:00Z"),
          endDateTime := some (str "2026-01-14T11:00:00Z") }).1.appointments =
      [{ id := 7, google_event_id := str "g1", sync_state := str "local",
         title := str "Mine" }] ∧
    (stepEvent { now := ⟨0, some 0⟩, nowStamp := str "20260101000000" }
        ({ appointments := [{ id := 7, google_event_id := str "g1",
                              sync_state := str "local",
                              title := str "Mine" }], nextId := 10 },
         {})
        { id := some (str "g1"),
          description := some (str "[REALESTATE_CRM]\nagent_email=jane@x.com\n[/REALESTATE_CRM]"),
          startDateTime := some (str "2026-01-14T10:00:00Z"),
          endDateTime := some (str "2026-01-14T11:00:00Z") }).2 =
      { created := 0, updated := 0, skipped := 1 } :=
  import_local_wins _ _ _ _
    { id := 7, google_event_id := str "g1", sync_state := str "local",
      title := str "Mine" }
    (by decide) (by decide)

theorem applyUpdate_id (u : ApptUpdate) (a : Appointment) :
    (applyUpdate u a).id = a.id := by
  simp only [applyUpdate]
  repeat' split
  all_goals rfl

theorem find_map_update (l : List Appointment) (pk : Nat) (u : ApptUpdate) :
    (l.map (fun a => if a.id = pk then applyUpdate u a else a)).find?
        (fun a => decide (a.id = pk)) =
      (l.find? (fun a => decide (a.id = pk))).map (applyUpdate u) := by
  induction l with
  | nil => rfl
  | cons a t ih =>
    by_cases h : a.id = pk
    · rw [List.map_cons, if_pos h,
        List.find?_cons_of_pos _ (by simp [applyUpdate_id, h]),
        List.find?_cons_of_pos _ (by simp [h])]
      rfl
    · rw [List.map_cons, if_neg h,
        List.find?_cons_of_neg _ (by simp [h]),
        List.find?_cons_of_neg _ (by simp [h])]
      exact ih

theorem find_map_update_other (l : List Appointment) (pk pk' : Nat)
    (u : ApptUpdate) (h : pk' ≠ pk) :
    (l.map (fun a => if a.id = pk then applyUpdate u a else a)).find?
        (fun a => decide (a.id = pk')) =
      l.find? (fun a => decide (a.id = pk')) := by
  induction l with
  | nil => rfl
  | cons a t ih =>
    by_cases ha : a.id = pk
    · have ha' : a.id ≠ pk' := by rw [ha]; exact fun hx => h hx.symm
      rw [List.map_cons, if_pos ha,
        List.find?_cons_of_neg _ (by simp [applyUpdate_id, ha']),
        List.find?_cons_of_neg _ (by simp [ha'])]
      exact ih
    · by_cases ha' : a.id = pk'
      · rw [List.map_cons, if_neg ha,
          List.find?_cons_of_pos _ (by simp [ha']),
          List.find?_cons_of_pos _ (by simp [ha'])]
      · rw [List.map_cons, if_neg ha,
          List.find?_cons_of_neg _ (by simp [ha']),
          List.find?_cons_of_neg _ (by simp [ha'])]
        exact ih

theorem lookupAppt_safeUpdate_same (db : Db) (pk : Nat) (u : ApptUpdate) :
    lookupAppt (safeUpdate db pk u) pk =
      (lookupAppt db pk).map (applyUpdate u) := by
  unfold lookupAppt safeUpdate
  exact find_map_update _ _ _

theorem lookupAppt_safeUpdate_other (db : Db) (pk pk' : Nat) (u : ApptUpdate)
    (h : pk' ≠ pk) :
    lookupAppt (safeUpdate db pk u) pk' = lookupAppt db pk' := by
  unfold lookupAppt safeUpdate
  exact find_map_update_other _ _ _ _ h

theorem upsert_of_outcome_error (penv : PushEnv) (now : PyDateTime) (db : Db)
    (appt : Appointment) (msg : Str) (h : pushOutcome penv appt = .error msg) :
    upsertEventForAppointment penv now db appt = .error msg := by
  unfold upsertEventForAppointment
  rw [h]

theorem upsert_of_outcome_ok (penv : PushEnv) (now : PyDateTime) (db : Db)
    (appt : Appointment) (ev : GEvent) (h : pushOutcome penv appt = .ok ev) :
    upsertEventForAppointment penv now db appt =
      .ok (ev, safeUpdate db appt.id
        { google_event_id := some ((pyOr ev.id (some appt.google_event_id)).getD []),
          google_etag := some (pyOrEmpty ev.etag),
          last_synced_at := some (some now),
          sync_state := some (str "synced"),
          sync_error := some [] }) := by
  unfold upsertEventForAppointment
  rw [h]

theorem pushLoop_checked (penv : PushEnv) (now : PyDateTime) :
    ∀ (l : List Appointment) (st : Db × PushCounts),
      (pushLoop penv now st l).2.checked = st.2.checked + l.length := by
  intro l
  induction l with
  | nil => intro st; rfl
  | cons a t ih =>
    intro st
    obtain ⟨db, c⟩ := st
    cases hout : pushOutcome penv a with
    | ok ev =>
      simp only [pushLoop, upsert_of_outcome_ok penv now db a ev hout]
      rw [ih]
      simp only [List.length_cons]
      omega
    | error msg =>
      simp only [pushLoop, upsert_of_outcome_error penv now db a msg hout]
      rw [ih]
      simp only [List.length_cons]
      omega

theorem pushLoop_errors (penv : PushEnv) (now : PyDateTime) :
    ∀ (l : List Appointment) (st : Db × PushCounts),
      (pushLoop penv now st l).2.errors =
        st.2.errors + (l.filter (outcomeFails penv)).length := by
  intro l
  induction l with
  | nil => intro st; rfl
  | cons a t ih =>
    intro st
    obtain ⟨db, c⟩ := st
    cases hout : pushOutcome penv a with
    | ok ev =>
      simp only [pushLoop, upsert_of_outcome_ok penv now db a ev hout]
      rw [ih]
      have hfa : outcomeFails penv a = false := by
        unfold outcomeFails; rw [hout]
      rw [List.filter_cons, hfa]
      simp
    | error msg =>
      simp only [pushLoop, upsert_of_outcome_error penv now db a msg hout]
      rw [ih]
      have hfa : outcomeFails penv a = true := by
        unfold outcomeFails; rw [hout]
      rw [List.filter_cons, hfa]
      simp only [List.length_cons, if_pos trivial]
      omega

theorem pushLoop_frame (penv : PushEnv) (now : PyDateTime) (pk : Nat) :
    ∀ (l : List Appointment) (st : Db × PushCounts),
      (∀ b ∈ l, b.id ≠ pk) →
      lookupAppt (pushLoop penv now st l).1 pk = lookupAppt st.1 pk := by
  intro l
  induction l with
  | nil => intro st _; rfl
  | cons a t ih =>
    intro st hne
    obtain ⟨db, c⟩ := st
    have hapk : pk ≠ a.id := fun h => hne a (List.mem_cons_self a t) h.symm
    cases hout : pushOutcome penv a with
    | ok ev =>
      simp only [pushLoop, upsert_of_outcome_ok penv now db a ev hout]
      rw [ih _ (fun b hb => hne b (List.mem_cons_of_mem a hb))]
      simp only []
      rw [lookupAppt_safeUpdate_other _ _ _ _ hapk,
        lookupAppt_safeUpdate_other _ _ _ _ hapk]
    | error msg =>
      simp only [pushLoop, upsert_of_outcome_error penv now db a msg hout]
      rw [ih _ (fun b hb => hne b (List.mem_cons_of_mem a hb))]
      simp only []
      rw [lookupAppt_safeUpdate_other _ _ _ _ hapk]

theorem pushLoop_append (penv : PushEnv) (now : PyDateTime) :
    ∀ (l1 l2 : List Appointment) (st : Db × PushCounts),
      pushLoop penv now st (l1 ++ l2) =
        pushLoop penv now (pushLoop penv now st l1) l2 := by
  intro l1
  induction l1 with
  | nil => intro l2 st; rfl
  | cons a t ih =>
    intro l2 st
    obtain ⟨db, c⟩ := st
    cases hout : pushOutcome penv a with
    | ok ev =>
      simp only [List.cons_append, pushLoop,
        upsert_of_outcome_ok penv now db a ev hout]
      exact ih _ _
    | error msg =>
      simp only [List.cons_append, pushLoop,
        upsert_of_outcome_error penv now db a msg hout]
      exact ih _ _

theorem find_eq_of_mem_nodup (l : List Appointment) (a : Appointment)
    (hmem : a ∈ l) (hnd : (l.map (·.id)).Nodup) :
    l.find? (fun b => decide (b.id = a.id)) = some a := by
  induction l with
  | nil => cases hmem
  | cons b t ih =>
    rw [List.map_cons] at hnd
    obtain ⟨hb, hndt⟩ := List.nodup_cons.mp hnd
    rcases List.mem_cons.mp hmem with rfl | hmem'
    · exact List.find?_cons_of_pos _ (by simp)
    · have hbne : b.id ≠ a.id := by
        intro h
        exact hb (h ▸ List.mem_map_of_mem (·.id) hmem')
      rw [List.find?_cons_of_neg _ (by simp [hbne])]
      exact ih hmem' hndt

theorem pushSelection_subset (limit : Nat) (db : Db) :
    ∀ a ∈ pushSelection limit db, a ∈ db.appointments := by
  intro a ha
  unfold pushSelection at ha
  have h1 := List.take_subset _ _ ha
  have h2 := (List.perm_insertionSort apptLe _).subset h1
  exact List.mem_of_mem_filter h2

theorem pushSelection_ids_nodup (limit : Nat) (db : Db)
    (hwf : (db.appointments.map (·.id)).Nodup) :
    ((pushSelection limit db).map (·.id)).Nodup := by
  unfold pushSelection
  have h1 : ((db.appointments.filter
      (fun a => decide (a.sync_state = str "local"))).map (·.id)).Nodup :=
    List.Nodup.sublist (List.Sublist.map (fun a : Appointment => a.id) (List.filter_sublist _)) hwf
  have h2 : ((List.insertionSort apptLe (db.appointments.filter
      (fun a => decide (a.sync_state = str "local")))).map (·.id)).Nodup :=
    (((List.perm_insertionSort apptLe _).map (fun a : Appointment => a.id)).nodup_iff).mpr h1
  exact List.Nodup.sublist (List.Sublist.map (fun a : Appointment => a.id) (List.take_sublist _ _)) h2

/-- Claim C8 (confirmed): the outbound push selects only appointments with
`sync_state = "local"`, in ascending id order, caps the batch at `limit`,
and its `checked` counter equals the batch size, hence `checked ≤ limit`
however many rows are eligible. -/
theorem pushLocalAppointments_bounded (penv : PushEnv) (now : PyDateTime)
    (limit : Nat) (db : Db) :
    (∀ a ∈ pushSelection limit db, a.sync_state = str "local") ∧
    List.Sorted apptLe (pushSelection limit db) ∧
    (pushSelection limit db).length ≤ limit ∧
    (pushLocalAppointments penv now limit db).2.checked =
      (pushSelection limit db).length ∧
    (pushLocalAppointments penv now limit db).2.checked ≤ limit := by
  have hlen : (pushSelection limit db).length ≤ limit := by
    unfold pushSelection
    exact List.length_take_le _ _
  have hchk : (pushLocalAppointments penv now limit db).2.checked =
      (pushSelection limit db).length := by
    unfold pushLocalAppointments
    rw [pushLoop_checked]
    simp
  refine ⟨?_, ?_, hlen, hchk, by rw [hchk]; exact hlen⟩
  · intro a ha
    unfold pushSelection at ha
    have h1 := List.take_subset _ _ ha
    have h2 := (List.perm_insertionSort apptLe _).subset h1
    exact of_decide_eq_true (List.mem_filter.mp h2).2
  · exact List.Pairwise.sublist (List.take_sublist _ _)
      (List.sorted_insertionSort apptLe _)

/-- Closed instance of `pushLocalAppointments_bounded` (no hypotheses, but
stated at a concrete store for the record): with three eligible rows and
limit 2, exactly two are checked. -/
theorem pushLocalAppointments_bounded_witness :
    (pushLocalAppointments { creds := .ok (), net := fun _ => .ok {} }
        ⟨0, none⟩ 2
        { appointments :=
            [{ id := 3, sync_state := str "local" },
             { id := 1, sync_state := str "local" },
             { id := 2, sync_state := str "local" }],
          nextId := 4 }).2.checked = 2 := by
  rw [(pushLocalAppointments_bounded { creds := .ok (), net := fun _ => .ok {} }
      ⟨0, none⟩ 2
      { appointments :=
          [{ id := 3, sync_state := str "local" },
           { id := 1, sync_state := str "local" },
           { id := 2, sync_state := str "local" }],
        nextId := 4 }).2.2.2.1]
  decide

/-- Claim C5 (confirmed): when pushing one appointment of the batch fails —
credential failure, network failure, or the missing start/end guard — the
push stamps that row `sync_state = "error"` with the failure message (under
the `PUSH ERROR: ` prefix) in `sync_error` and `last_synced_at = now`,
counts the error, and still processes every other appointment of the
batch: `checked` equals the full batch size and `errors` counts exactly
the failing items. -/
theorem pushLocalAppointments_error_handling (penv : PushEnv)
    (now : PyDateTime) (limit : Nat) (db : Db)
    (hwf : (db.appointments.map (fun a => a.id)).Nodup)
    (appt : Appointment) (hmem : appt ∈ pushSelection limit db)
    (msg : Str) (hfail : pushOutcome penv appt = .error msg) :
    (∃ a', lookupAppt (pushLocalAppointments penv now limit db).1 appt.id =
        some a' ∧
      a'.sync_state = str "error" ∧
      a'.sync_error = str "PUSH ERROR: " ++ msg ∧
      a'.last_synced_at = some now) ∧
    (pushLocalAppointments penv now limit db).2.checked =
      (pushSelection limit db).length ∧
    (pushLocalAppointments penv now limit db).2.errors =
      ((pushSelection limit db).filter (outcomeFails penv)).length := by
  obtain ⟨pre, post, hsel⟩ := List.append_of_mem hmem
  have hnd := pushSelection_ids_nodup limit db hwf
  rw [hsel, List.map_append, List.map_cons, List.nodup_append] at hnd
  obtain ⟨hnd1, hnd2, hdisj⟩ := hnd
  have hpost : ∀ b ∈ post, b.id ≠ appt.id := by
    intro b hb heq
    exact (List.nodup_cons.mp hnd2).1
      (heq ▸ List.mem_map_of_mem (fun a => a.id) hb)
  have hpre : ∀ b ∈ pre, b.id ≠ appt.id := by
    intro b hb heq
    exact hdisj (List.mem_map_of_mem (fun a => a.id) hb)
      (by rw [← heq]; exact List.mem_cons_self _ _)
  have hmemdb : appt ∈ db.appointments := pushSelection_subset limit db appt hmem
  have hlook0 : lookupAppt db appt.id = some appt := by
    unfold lookupAppt
    exact find_eq_of_mem_nodup _ _ hmemdb hwf
  have hrun : pushLocalAppointments penv now limit db =
      pushLoop penv now (pushLoop penv now (db, {}) pre) (appt :: post) := by
    unfold pushLocalAppointments
    rw [hsel, pushLoop_append]
  refine ⟨?_, ?_, ?_⟩
  · rcases hst1 : pushLoop penv now (db, {}) pre with ⟨db1, c1⟩
    have hfinal : lookupAppt (pushLocalAppointments penv now limit db).1 appt.id =
        some (applyUpdate
          { sync_state := some (str "error"),
            sync_error := some (str "PUSH ERROR: " ++ msg),
            last_synced_at := some (some now) } appt) := by
      rw [hrun, hst1]
      simp only [pushLoop, upsert_of_outcome_error penv now db1 appt msg hfail]
      rw [pushLoop_frame penv now appt.id post _ hpost]
      simp only []
      rw [lookupAppt_safeUpdate_same]
      have hl1 : lookupAppt db1 appt.id = some appt := by
        have hfr := pushLoop_frame penv now appt.id pre (db, {}) hpre
        rw [hst1] at hfr
        simp only [] at hfr
        rw [hfr]
        exact hlook0
      rw [hl1]
      rfl
    exact ⟨_, hfinal, rfl, rfl, rfl⟩
  · unfold pushLocalAppointments
    rw [pushLoop_checked]
    simp
  · unfold pushLocalAppointments
    rw [pushLoop_errors]
    simp

/-- Closed instance of `pushLocalAppointments_error_handling`: a batch of
two `local` appointments where the first lacks an end timestamp — the
first is marked `error` with the guard's message, the second is still
checked, and the counters read checked 2, errors 1. -/
theorem pushLocalAppointments_error_handling_witness :
    (∃ a', lookupAppt (pushLocalAppointments
        { creds := .ok (), net := fun _ => .ok {} } ⟨5, none⟩ 50
        { appointments :=
            [{ id := 1, sync_state := str "local", start := some ⟨0, some 0⟩ },
             { id := 2, sync_state := str "local", start := some ⟨0, some 0⟩,
               end_ := some ⟨1, some 0⟩ }],
          nextId := 3 }).1 1 = some a' ∧
      a'.sync_state = str "error" ∧
      a'.sync_error = str "PUSH ERROR: " ++
        str "Appointment senza start/end: non posso pushare su Google." ∧
      a'.last_synced_at = some ⟨5, none⟩) ∧
    (pushLocalAppointments { creds := .ok (), net := fun _ => .ok {} }
        ⟨5, none⟩ 50
        { appointments :=
            [{ id := 1, sync_state := str "local", start := some ⟨0, some 0⟩ },
             { id := 2, sync_state := str "local", start := some ⟨0, some 0⟩,
               end_ := some ⟨1, some 0⟩ }],
          nextId := 3 }).2.checked = (pushSelection 50
        { appointments :=
            [{ id := 1, sync_state := str "local", start := some ⟨0, some 0⟩ },
             { id := 2, sync_state := str "local", start := some ⟨0, some 0⟩,
               end_ := some ⟨1, some 0⟩ }],
          nextId := 3 }).length ∧
    (pushLocalAppointments { creds := .ok (), net := fun _ => .ok {} }
        ⟨5, none⟩ 50
        { appointments :=
            [{ id := 1, sync_state := str "local", start := some ⟨0, some 0⟩ },
             { id := 2, sync_state := str "local", start := some ⟨0, some 0⟩,
               end_ := some ⟨1, some 0⟩ }],
          nextId := 3 }).2.errors = ((pushSelection 50
        { appointments :=
            [{ id := 1, sync_state := str "local", start := some ⟨0, some 0⟩ },
             { id := 2, sync_state := str "local", start := some ⟨0, some 0⟩,
               end_ := some ⟨1, some 0⟩ }],
          nextId := 3 }).filter (outcomeFails
            { creds := .ok (), net := fun _ => .ok {} })).length :=
  pushLocalAppointments_error_handling
    { creds := .ok (), net := fun _ => .ok {} } ⟨5, none⟩ 50
    { appointments :=
        [{ id := 1, sync_state := str "local", start := some ⟨0, some 0⟩ },
         { id := 2, sync_state := str "local", start := some ⟨0, some 0⟩,
           end_ := some ⟨1, some 0⟩ }],
      nextId := 3 }
    (by decide)
    { id := 1, sync_state := str "local", start := some ⟨0, some 0⟩ }
    (by decide)
    (str "Appointment senza start/end: non posso pushare su Google.")
    rfl

theorem toNat_ofNat_valid (n : Nat) (h : n < 55296) : (Char.ofNat n).toNat = n := by
  rw [Char.ofNat, dif_pos (Or.inl h)]
  rfl

theorem pyIsSpace_lowerChar (c : Char) : pyIsSpace (pyLowerChar c) = pyIsSpace c := by
  unfold pyLowerChar
  by_cases h : 65 ≤ c.toNat ∧ c.toNat ≤ 90
  · rw [if_pos h]
    obtain ⟨h1, h2⟩ := h
    have ht : (Char.ofNat (c.toNat + 32)).toNat = c.toNat + 32 :=
      toNat_ofNat_valid _ (by omega)
    have hL : pyIsSpace (Char.ofNat (c.toNat + 32)) = false := by
      unfold pyIsSpace
      rw [ht]
      simp only [Bool.or_eq_false_iff, decide_eq_false_iff_not]
      omega
    have hR : pyIsSpace c = false := by
      unfold pyIsSpace
      simp only [Bool.or_eq_false_iff, decide_eq_false_iff_not]
      omega
    rw [hL, hR]
  · rw [if_neg h]

theorem pyLStrip_lower (s : Str) : pyLStrip (pyLower s) = pyLower (pyLStrip s) := by
  unfold pyLStrip pyLower
  rw [List.dropWhile_map]
  have hp : (pyIsSpace ∘ pyLowerChar) = pyIsSpace := funext pyIsSpace_lowerChar
  rw [hp]

theorem pyRStrip_lower (s : Str) : pyRStrip (pyLower s) = pyLower (pyRStrip s) := by
  unfold pyRStrip pyLower
  rw [← List.map_reverse, List.dropWhile_map]
  have hp : (pyIsSpace ∘ pyLowerChar) = pyIsSpace := funext pyIsSpace_lowerChar
  rw [hp, List.map_reverse]

theorem pyStrip_lower (s : Str) : pyStrip (pyLower s) = pyLower (pyStrip s) := by
  unfold pyStrip
  rw [pyLStrip_lower, pyRStrip_lower]

/-- Claim C10 (confirmed): the decoder lower-cases the agent and contact
email values, the agent and contact upserts normalize (strip, lower) their
email key before any lookup, and hence two emails that agree up to letter
case resolve to the same agent (and the same contact). -/
theorem import_email_case_insensitive :
    (∀ out v, applyKV out (str "agent_email") v =
      { out with agent_email := some (pyLower v) }) ∧
    (∀ out v, applyKV out (str "contact_email") v =
      { out with contact_email := some (pyLower v) }) ∧
    (∀ (db : Db) (e1 e2 : Str), pyLower e1 = pyLower e2 →
      ensureAgent e1 db = ensureAgent e2 db) ∧
    (∀ (db : Db) (n : Option Str) (e1 e2 : Str) (p : Option Str),
      pyLower e1 = pyLower e2 →
      ensureContact n (some e1) p db = ensureContact n (some e2) p db) := by
  have hkey : ∀ e1 e2 : Str, pyLower e1 = pyLower e2 →
      pyLower (pyStrip e1) = pyLower (pyStrip e2) := by
    intro e1 e2 h
    rw [← pyStrip_lower, ← pyStrip_lower, h]
  refine ⟨?_, ?_, ?_, ?_⟩
  · intro out v
    unfold applyKV
    rw [if_neg (by decide), if_neg (by decide), if_neg (by decide),
      if_pos rfl]
  · intro out v
    unfold applyKV
    rw [if_neg (by decide), if_neg (by decide), if_neg (by decide),
      if_neg (by decide), if_neg (by decide), if_neg (by decide),
      if_pos rfl]
  · intro db e1 e2 h
    unfold ensureAgent
    rw [hkey e1 e2 h]
  · intro db n e1 e2 p h
    unfold ensureContact
    simp only [Option.getD_some]
    rw [hkey e1 e2 h]

/-- Closed instance of `import_email_case_insensitive`: the same agent
email in different letter cases resolves identically on the empty store,
and the decoder stores the lowered value. -/
theorem import_email_case_insensitive_witness :
    ensureAgent (str "Jane@X.com") {} = ensureAgent (str "jane@x.com") {} ∧
    applyKV {} (str "agent_email") (str "Jane@X.com") =
      { agent_email := some (pyLower (str "Jane@X.com")) } :=
  ⟨import_email_case_insensitive.2.2.1 {} _ _ (by decide),
   import_email_case_insensitive.1 {} _⟩

/-- Claim C7, counterexample: an event carrying a valid CRM block and a
parseable all-day start but no end at all is skipped by the import (and
nothing is created), although it does not lack both timestamps — so
"skipped exactly when neither start nor end is parseable" fails. -/
theorem import_skip_despite_parseable_start :
    (stepEvent { now := ⟨0, some 0⟩, nowStamp := str "20260101000000" }
        ({}, {})
        { id := some (str "g2"),
          description := some (str "[REALESTATE_CRM]\nagent_email=jane@x.com\n[/REALESTATE_CRM]"),
          startDate := some (str "2026-03-01") }).2 =
      { created := 0, updated := 0, skipped := 1 } ∧
    (stepEvent { now := ⟨0, some 0⟩, nowStamp := str "20260101000000" }
        ({}, {})
        { id := some (str "g2"),
          description := some (str "[REALESTATE_CRM]\nagent_email=jane@x.com\n[/REALESTATE_CRM]"),
          startDate := some (str "2026-03-01") }).1.appointments = [] ∧
    (eventStartDt
        { id := some (str "g2"),
          description := some (str "[REALESTATE_CRM]\nagent_email=jane@x.com\n[/REALESTATE_CRM]"),
          startDate := some (str "2026-03-01") }).isSome = true := by
  decide

theorem parseIso_date_only (c1 c2 c3 c4 c5 c6 c7 c8 : Char)
    (h1 : c1.isDigit = true) (h2 : c2.isDigit = true) (h3 : c3.isDigit = true)
    (h4 : c4.isDigit = true) (h5 : c5.isDigit = true) (h6 : c6.isDigit = true)
    (h7 : c7.isDigit = true) (h8 : c8.isDigit = true)
    (y m d : Nat)
    (hy : y = ((c1.toNat - 48) * 10 + (c2.toNat - 48)) * 100 +
      (c3.toNat - 48) * 10 + (c4.toNat - 48))
    (hm : m = (c5.toNat - 48) * 10 + (c6.toNat - 48))
    (hd : d = (c7.toNat - 48) * 10 + (c8.toNat - 48))
    (hval : 1 ≤ y ∧ 1 ≤ m ∧ m ≤ 12 ∧ 1 ≤ d ∧ d ≤ daysInMonth y m) :
    parseIso (some [c1, c2, c3, c4, '-', c5, c6, '-', c7, c8]) =
      some { naiveUs := usOfDateTime y m d 0 0 0 0, tzOffsetUs := some 0 } := by
  have hne : ∀ c : Char, c.isDigit = true → ('T' == c) = false := by
    intro c hc
    rw [beq_eq_false_iff_ne]
    intro h; rw [← h] at hc; exact absurd hc (by decide)
  have hnoT : ([c1, c2, c3, c4, '-', c5, c6, '-', c7, c8] : Str).contains 'T' = false := by
    simp only [List.contains_cons, hne c1 h1, hne c2 h2, hne c3 h3, hne c4 h4,
      hne c5 h5, hne c6 h6, hne c7 h7, hne c8 h8, Bool.false_or]
    rfl
  have hparse : pyFromIso [c1, c2, c3, c4, '-', c5, c6, '-', c7, c8] =
      some { naiveUs := usOfDateTime y m d 0 0 0 0 } := by
    unfold pyFromIso readNDigits
    simp only [readDigitsAux, h1, h2, h3, h4, h5, h6, h7, h8, if_true]
    rw [show (((0 * 10 + (c1.toNat - 48)) * 10 + (c2.toNat - 48)) * 10 +
        (c3.toNat - 48)) * 10 + (c4.toNat - 48) = y from by omega,
      show (0 * 10 + (c5.toNat - 48)) * 10 + (c6.toNat - 48) = m from by omega,
      show (0 * 10 + (c7.toNat - 48)) * 10 + (c8.toNat - 48) = d from by omega]
    unfold pyFromIsoTail
    rw [if_pos hval]
  unfold parseIso
  simp only []
  rw [if_neg (by simp)]
  rw [hnoT]
  simp only [Bool.false_eq_true, if_false]
  rw [hparse]

theorem import_skip_on_missing_timestamp (env : Env) (ev : GEvent) (db : Db)
    (cnt : ImportCounts) (evAgent : Agent) (db1 : Db)
    (hgate : ¬(findSub CRM_OPEN (ev.description.getD []) = none ∨
        findSub CRM_CLOSE (ev.description.getD []) = none))
    (hagent : ensureAgent
      ((parseCrmBlock (ev.description.getD [])).agent_email.getD []) db =
        some (evAgent, db1))
    (hlack : eventStartDt ev = none ∨ eventEndDt ev = none) :
    (stepEvent env (db, cnt) ev).1.appointments = db.appointments ∧
    (stepEvent env (db, cnt) ev).2 =
      { created := cnt.created, updated := cnt.updated,
        skipped := cnt.skipped + 1 } := by
  have hA1 : db1.appointments = db.appointments :=
    ensureAgent_appointments _ _ _ _ hagent
  have hA3 : ((ensureContact (parseCrmBlock (ev.description.getD [])).contact_name
      (parseCrmBlock (ev.description.getD [])).contact_email
      (parseCrmBlock (ev.description.getD [])).contact_phone
      (ensureProperty (parseCrmBlock (ev.description.getD [])).property_code
        (parseCrmBlock (ev.description.getD [])).property_address env db1).2).2).appointments =
      db.appointments := by
    rw [ensureContact_appointments, ensureProperty_appointments, hA1]
  simp only [stepEvent]
  rw [if_neg hgate, hagent]
  simp only []
  rcases hlack with h | h
  · rw [h]
    exact ⟨hA3, rfl⟩
  · cases hs : eventStartDt ev with
    | none => exact ⟨hA3, rfl⟩
    | some sdt =>
      rw [h]
      exact ⟨hA3, rfl⟩

theorem import_create_on_both_timestamps (env : Env) (ev : GEvent) (db : Db)
    (cnt : ImportCounts) (evAgent : Agent) (db1 : Db) (sdt edt : PyDateTime)
    (hgate : ¬(findSub CRM_OPEN (ev.description.getD []) = none ∨
        findSub CRM_CLOSE (ev.description.getD []) = none))
    (hagent : ensureAgent
      ((parseCrmBlock (ev.description.getD [])).agent_email.getD []) db =
        some (evAgent, db1))
    (hs : eventStartDt ev = some sdt) (he : eventEndDt ev = some edt)
    (hnomatch : findApptByEventId db.appointments ev.id = none) :
    (stepEvent env (db, cnt) ev).2 =
      { created := cnt.created + 1, updated := cnt.updated,
        skipped := cnt.skipped } := by
  have hA1 : db1.appointments = db.appointments :=
    ensureAgent_appointments _ _ _ _ hagent
  have hA3 : ((ensureContact (parseCrmBlock (ev.description.getD [])).contact_name
      (parseCrmBlock (ev.description.getD [])).contact_email
      (parseCrmBlock (ev.description.getD [])).contact_phone
      (ensureProperty (parseCrmBlock (ev.description.getD [])).property_code
        (parseCrmBlock (ev.description.getD [])).property_address env db1).2).2).appointments =
      db.appointments := by
    rw [ensureContact_appointments, ensureProperty_appointments, hA1]
  simp only [stepEvent]
  rw [if_neg hgate, hagent]
  simp only []
  rw [hs, he]
  simp only []
  rw [show findApptByEventId
      ((ensureContact (parseCrmBlock (ev.description.getD [])).contact_name
        (parseCrmBlock (ev.description.getD [])).contact_email
        (parseCrmBlock (ev.description.getD [])).contact_phone
        (ensureProperty (parseCrmBlock (ev.description.getD [])).property_code
          (parseCrmBlock (ev.description.getD [])).property_address env db1).2).2).appointments
      ev.id = none by rw [findApptByEventId] at hnomatch ⊢; rw [hA3]; exact hnomatch]

/-- Claim C7 (corrected): start and end come from the event's
date-or-datetime representation, and a date-only (all-day) value is read
as midnight UTC; but an event that passed the CRM-block and agent gates is
skipped for lacking timestamps whenever its start or its end is missing or
unparsable — not only when both are (`import_skip_despite_parseable_start`
refutes the "neither" reading) — and when both parse and no local match
exists the event proceeds and is counted as created. -/
theorem import_timestamp_handling :
    (∀ (c1 c2 c3 c4 c5 c6 c7 c8 : Char),
      c1.isDigit = true → c2.isDigit = true → c3.isDigit = true →
      c4.isDigit = true → c5.isDigit = true → c6.isDigit = true →
      c7.isDigit = true → c8.isDigit = true →
      ∀ (y m d : Nat),
      y = ((c1.toNat - 48) * 10 + (c2.toNat - 48)) * 100 +
        (c3.toNat - 48) * 10 + (c4.toNat - 48) →
      m = (c5.toNat - 48) * 10 + (c6.toNat - 48) →
      d = (c7.toNat - 48) * 10 + (c8.toNat - 48) →
      (1 ≤ y ∧ 1 ≤ m ∧ m ≤ 12 ∧ 1 ≤ d ∧ d ≤ daysInMonth y m) →
      parseIso (some [c1, c2, c3, c4, '-', c5, c6, '-', c7, c8]) =
        some { naiveUs := usOfDateTime y m d 0 0 0 0, tzOffsetUs := some 0 }) ∧
    (∀ (env : Env) (ev : GEvent) (db : Db) (cnt : ImportCounts)
      (evAgent : Agent) (db1 : Db),
      ¬(findSub CRM_OPEN (ev.description.getD []) = none ∨
        findSub CRM_CLOSE (ev.description.getD []) = none) →
      ensureAgent ((parseCrmBlock (ev.description.getD [])).agent_email.getD [])
        db = some (evAgent, db1) →
      (eventStartDt ev = none ∨ eventEndDt ev = none) →
      (stepEvent env (db, cnt) ev).1.appointments = db.appointments ∧
      (stepEvent env (db, cnt) ev).2 =
        { created := cnt.created, updated := cnt.updated,
          skipped := cnt.skipped + 1 }) ∧
    (∀ (env : Env) (ev : GEvent) (db : Db) (cnt : ImportCounts)
      (evAgent : Agent) (db1 : Db) (sdt edt : PyDateTime),
      ¬(findSub CRM_OPEN (ev.description.getD []) = none ∨
        findSub CRM_CLOSE (ev.description.getD []) = none) →
      ensureAgent ((parseCrmBlock (ev.description.getD [])).agent_email.getD [])
        db = some (evAgent, db1) →
      eventStartDt ev = some sdt → eventEndDt ev = some edt →
      findApptByEventId db.appointments ev.id = none →
      (stepEvent env (db, cnt) ev).2 =
        { created := cnt.created + 1, updated := cnt.updated,
          skipped := cnt.skipped }) :=
  ⟨fun c1 c2 c3 c4 c5 c6 c7 c8 h1 h2 h3 h4 h5 h6 h7 h8 y m d hy hm hd hval =>
      parseIso_date_only c1 c2 c3 c4 c5 c6 c7 c8 h1 h2 h3 h4 h5 h6 h7 h8
        y m d hy hm hd hval,
   fun env ev db cnt evAgent db1 hgate hagent hlack =>
      import_skip_on_missing_timestamp env ev db cnt evAgent db1 hgate hagent hlack,
   fun env ev db cnt evAgent db1 sdt edt hgate hagent hs he hnomatch =>
      import_create_on_both_timestamps env ev db cnt evAgent db1 sdt edt
        hgate hagent hs he hnomatch⟩

/-- Closed instances of `import_timestamp_handling`: the all-day string
`2026-03-01` parses to midnight UTC of that day, and an event with a
parseable start but no end is counted skipped. -/
theorem import_timestamp_handling_witness :
    parseIso (some ['2', '0', '2', '6', '-', '0', '3', '-', '0', '1']) =
      some { naiveUs := usOfDateTime 2026 3 1 0 0 0 0, tzOffsetUs := some 0 } ∧
    (stepEvent { now := ⟨0, some 0⟩, nowStamp := str "20260101000000" }
        ({}, {})
        { id := some (str "g2"),
          description := some (str "[REALESTATE_CRM]\nagent_email=jane@x.com\n[/REALESTATE_CRM]"),
          startDate := some (str "2026-03-01") }).2 =
      { created := 0, updated := 0, skipped := 1 } :=
  ⟨import_timestamp_handling.1 '2' '0' '2' '6' '0' '3' '0' '1'
      (by decide) (by decide) (by decide) (by decide) (by decide) (by decide)
      (by decide) (by decide) 2026 3 1 (by decide) (by decide) (by decide)
      (by decide),
   (import_timestamp_handling.2.1
      { now := ⟨0, some 0⟩, nowStamp := str "20260101000000" }
      { id := some (str "g2"),
        description := some (str "[REALESTATE_CRM]\nagent_email=jane@x.com\n[/REALESTATE_CRM]"),
        startDate := some (str "2026-03-01") }
      {} {}
      { id := 1, name := str "jane", email := str "jane@x.com" }
      { agents := [{ id := 1, name := str "jane", email := str "jane@x.com" }],
        nextId := 2 }
      (by decide) (by decide) (Or.inr (by decide))).2⟩

theorem dropWhile_idem (p : Char → Bool) (l : Str) :
    (l.dropWhile p).dropWhile p = l.dropWhile p := by
  induction l with
  | nil => rfl
  | cons c t ih =>
    by_cases h : p c = true
    · rw [List.dropWhile_cons_of_pos h, ih]
    · rw [List.dropWhile_cons_of_neg (by simp [h]),
        List.dropWhile_cons_of_neg (by simp [h])]

theorem pyRStrip_idem (l : Str) : pyRStrip (pyRStrip l) = pyRStrip l := by
  unfold pyRStrip
  rw [List.reverse_reverse, dropWhile_idem]

theorem pyStrip_subset (s : Str) : ∀ c ∈ pyStrip s, c ∈ s := by
  intro c hc
  unfold pyStrip pyRStrip pyLStrip at hc
  rw [List.mem_reverse] at hc
  have h1 : c ∈ ((s.dropWhile pyIsSpace).reverse) :=
    List.dropWhile_subset pyIsSpace hc
  rw [List.mem_reverse] at h1
  exact List.dropWhile_subset pyIsSpace h1

theorem pyRStrip_subset (s : Str) : ∀ c ∈ pyRStrip s, c ∈ s := by
  intro c hc
  unfold pyRStrip at hc
  rw [List.mem_reverse] at hc
  have h1 := List.dropWhile_subset pyIsSpace hc
  rw [List.mem_reverse] at h1
  exact h1

theorem pyLStrip_split (l : Str) :
    l = pyRStrip l ++ (l.reverse.takeWhile pyIsSpace).reverse := by
  unfold pyRStrip
  rw [← List.reverse_append, List.takeWhile_append_dropWhile, List.reverse_reverse]

theorem pyStrip_head_not_space (s : Str) (c : Char) (t : Str)
    (h : pyStrip s = c :: t) : pyIsSpace c = false := by
  have hsplit := pyLStrip_split (pyLStrip s)
  unfold pyStrip at h
  rw [h] at hsplit
  have hhead : (pyLStrip s).head? = some c := by
    rw [hsplit]; rfl
  have hd := List.head?_dropWhile_not pyIsSpace s
  unfold pyLStrip at hhead
  rw [hhead] at hd
  exact hd

theorem pyRStrip_append_fix (x y : Str) (hx : pyRStrip x = x) :
    pyRStrip (x ++ y) = x ++ pyRStrip y := by
  unfold pyRStrip at hx ⊢
  rw [List.reverse_append, List.dropWhile_append]
  by_cases h : (y.reverse.dropWhile pyIsSpace).isEmpty = true
  · rw [if_pos h]
    rw [List.isEmpty_iff] at h
    rw [h, List.reverse_nil, List.append_nil]
    exact hx
  · rw [if_neg h, List.reverse_append, List.reverse_reverse]

theorem pyStrip_cons_space (c : Char) (l : Str) (hc : pyIsSpace c = true) :
    pyStrip (c :: l) = pyStrip l := by
  unfold pyStrip pyLStrip
  rw [List.dropWhile_cons_of_pos hc]

theorem pyRStrip_append_space (l : Str) (c : Char) (hc : pyIsSpace c = true) :
    pyRStrip (l ++ [c]) = pyRStrip l := by
  unfold pyRStrip
  rw [List.reverse_append, List.reverse_cons, List.reverse_nil,
    List.nil_append, List.singleton_append, List.dropWhile_cons_of_pos hc]

theorem pyStrip_append_space (l : Str) (c : Char) (hc : pyIsSpace c = true) :
    pyStrip (l ++ [c]) = pyStrip l := by
  unfold pyStrip pyLStrip
  rw [List.dropWhile_append]
  by_cases h : (l.dropWhile pyIsSpace).isEmpty = true
  · rw [if_pos h]
    rw [List.isEmpty_iff] at h
    rw [h, List.dropWhile_cons_of_pos hc]
    rfl
  · rw [if_neg h]
    exact pyRStrip_append_space _ _ hc

theorem pyStrip_idem (s : Str) : pyStrip (pyStrip s) = pyStrip s := by
  cases hs : pyStrip s with
  | nil => rfl
  | cons c t =>
    have hc := pyStrip_head_not_space s c t hs
    show pyStrip (c :: t) = c :: t
    unfold pyStrip pyLStrip
    rw [List.dropWhile_cons_of_neg (by simp [hc])]
    calc pyRStrip (c :: t) = pyRStrip (pyStrip s) := by rw [hs]
      _ = pyStrip s := pyRStrip_idem (pyLStrip s)
      _ = c :: t := hs

theorem isPre_append_self (s t : Str) : isPre s (s ++ t) = true := by
  induction s with
  | nil => rfl
  | cons c r ih => simp [isPre, ih]

theorem findSub_eq_some_of (needle : Str) :
    ∀ (hay : Str) (i : Nat), occursAt needle hay i →
      (∀ j, j < i → ¬occursAt needle hay j) → findSub needle hay = some i := by
  intro hay
  induction hay with
  | nil =>
    intro i hocc hmin
    cases i with
    | zero =>
      unfold findSub
      rw [if_pos (show isPre needle [] = true from hocc)]
    | succ n =>
      exact absurd (show occursAt needle [] 0 from hocc) (hmin 0 (Nat.succ_pos n))
  | cons c t ih =>
    intro i hocc hmin
    cases i with
    | zero =>
      unfold findSub
      rw [if_pos (show isPre needle (c :: t) = true from hocc)]
    | succ n =>
      unfold findSub
      rw [if_neg (show ¬isPre needle (c :: t) = true from hmin 0 (Nat.succ_pos n))]
      rw [ih n (show occursAt needle t n from hocc)
        (fun j hj hoj => hmin (j + 1) (Nat.succ_lt_succ hj) hoj)]
      rfl

theorem getElem?_of_drop_eq (l : Str) (j : Nat) (c : Char) (r : Str)
    (h : l.drop j = c :: r) : l[j]? = some c := by
  induction l generalizing j with
  | nil => rw [List.drop_nil] at h; cases h
  | cons x t ih =>
    cases j with
    | zero =>
      rw [List.drop_zero] at h
      injection h with h1 _
      rw [h1]
      simp
    | succ n =>
      rw [List.drop_succ_cons] at h
      simpa using ih n h

theorem occursAt_getElem (a : Char) (nt hay : Str) (j : Nat)
    (h : occursAt (a :: nt) hay j) : hay[j]? = some a := by
  unfold occursAt at h
  cases hd : hay.drop j with
  | nil => rw [hd] at h; exact absurd h (by simp [isPre])
  | cons c r =>
    rw [hd] at h
    simp only [isPre, Bool.and_eq_true, decide_eq_true_eq] at h
    rw [← h.1] at hd
    exact getElem?_of_drop_eq _ _ _ _ hd

theorem occursAt_getElem_second (a b : Char) (nt hay : Str) (j : Nat)
    (h : occursAt (a :: b :: nt) hay j) : hay[j + 1]? = some b := by
  unfold occursAt at h
  cases hd : hay.drop j with
  | nil => rw [hd] at h; exact absurd h (by simp [isPre])
  | cons c r =>
    rw [hd] at h
    simp only [isPre, Bool.and_eq_true, decide_eq_true_eq] at h
    obtain ⟨_, h2⟩ := h
    cases hr : r with
    | nil =>
      rw [hr] at h2
      exact absurd h2 (by simp [isPre])
    | cons c2 r2 =>
      rw [hr] at h2
      simp only [isPre, Bool.and_eq_true, decide_eq_true_eq] at h2
      have hdrop : hay.drop (j + 1) = c2 :: r2 := by
        rw [show j + 1 = j + 1 from rfl, ← List.drop_drop, hd, hr]
        rfl
      rw [← h2.1] at hdrop
      exact getElem?_of_drop_eq _ _ _ _ hdrop

theorem findSub_open_marker (P B : Str) (hP : '[' ∉ P) :
    findSub CRM_OPEN (P ++ (CRM_OPEN ++ B)) = some P.length := by
  apply findSub_eq_some_of
  · unfold occursAt
    rw [List.drop_left]
    exact isPre_append_self _ _
  · intro j hj hocc
    have hshape : CRM_OPEN = '[' :: (str "REALESTATE_CRM]") := rfl
    rw [hshape] at hocc
    have hget := occursAt_getElem _ _ _ _ hocc
    rw [List.getElem?_append_left hj] at hget
    exact hP (List.getElem?_mem hget)

theorem CRM_OPEN_length : CRM_OPEN.length = 16 := rfl

theorem CRM_CLOSE_length : CRM_CLOSE.length = 17 := rfl

theorem findSub_close_marker (P mid : Str) (hP : '[' ∉ P) (hmid : '[' ∉ mid) :
    findSub CRM_CLOSE (P ++ (CRM_OPEN ++ (mid ++ CRM_CLOSE))) =
      some (P.length + (16 + mid.length)) := by
  apply findSub_eq_some_of
  · unfold occursAt
    have hassoc : P ++ (CRM_OPEN ++ (mid ++ CRM_CLOSE)) =
        ((P ++ CRM_OPEN) ++ mid) ++ CRM_CLOSE := by
      simp [List.append_assoc]
    rw [hassoc, List.drop_left' (by
      simp only [List.length_append, CRM_OPEN_length]
      omega)]
    have h := isPre_append_self CRM_CLOSE []
    rwa [List.append_nil] at h
  · intro j hj hocc
    have hocc' : occursAt ('[' :: '/' :: str "REALESTATE_CRM]")
        (P ++ (CRM_OPEN ++ (mid ++ CRM_CLOSE))) j := hocc
    have hget := occursAt_getElem _ _ _ _ hocc'
    have hget2 := occursAt_getElem_second _ _ _ _ _ hocc'
    by_cases hjP : j < P.length
    · rw [List.getElem?_append_left hjP] at hget
      exact hP (List.getElem?_mem hget)
    · have hjP' : P.length ≤ j := Nat.le_of_not_lt hjP
      rw [List.getElem?_append_right hjP'] at hget
      by_cases hj0 : j - P.length = 0
      · have hj1 : P.length ≤ j + 1 := Nat.le_succ_of_le hjP'
        rw [List.getElem?_append_right hj1] at hget2
        have hidx : j + 1 - P.length = 1 := by omega
        rw [hidx] at hget2
        rw [List.getElem?_append_left (by rw [CRM_OPEN_length]; omega)] at hget2
        have hR : CRM_OPEN[1]? = some 'R' := by decide
        rw [hR] at hget2
        injection hget2 with hget2
        exact absurd hget2 (by decide)
      · have hj'lt : j - P.length < 16 + mid.length := by omega
        by_cases hj16 : j - P.length < 16
        · rw [List.getElem?_append_left (by rw [CRM_OPEN_length]; omega)] at hget
          have hnone : ∀ i, i < 16 → i ≠ 0 → ¬CRM_OPEN[i]? = some '[' := by decide
          exact hnone (j - P.length) hj16 hj0 hget
        · rw [List.getElem?_append_right (by rw [CRM_OPEN_length]; omega)] at hget
          rw [List.getElem?_append_left (by rw [CRM_OPEN_length]; omega)] at hget
          exact hmid (List.getElem?_mem hget)

theorem extractCrmBlock_concat (P mid : Str) (hP : '[' ∉ P) (hmid : '[' ∉ mid) :
    extractCrmBlock (P ++ (CRM_OPEN ++ (mid ++ CRM_CLOSE))) = some (pyStrip mid) := by
  unfold extractCrmBlock
  rw [if_neg (by
    intro h
    have := congrArg List.length h
    simp only [List.length_append, CRM_OPEN_length, CRM_CLOSE_length,
      List.length_nil] at this
    omega)]
  rw [findSub_open_marker P _ hP, findSub_close_marker P mid hP hmid]
  simp only []
  rw [if_neg (by omega)]
  rw [CRM_OPEN_length]
  have hdrop : (P ++ (CRM_OPEN ++ (mid ++ CRM_CLOSE))).drop (P.length + 16) =
      mid ++ CRM_CLOSE := by
    have hassoc : P ++ (CRM_OPEN ++ (mid ++ CRM_CLOSE)) =
        (P ++ CRM_OPEN) ++ (mid ++ CRM_CLOSE) := by
      simp [List.append_assoc]
    rw [hassoc, List.drop_left' (by
      simp only [List.length_append, CRM_OPEN_length])]
  rw [hdrop]
  have hidx : P.length + (16 + mid.length) - (P.length + 16) = mid.length := by
    omega
  rw [hidx, List.take_left' rfl]

theorem pyLStrip_cons_not_space (c : Char) (l : Str) (hc : pyIsSpace c = false) :
    pyLStrip (c :: l) = c :: l := by
  unfold pyLStrip
  rw [List.dropWhile_cons_of_neg (by simp [hc])]

theorem pyRStrip_last_not_space (l : Str) (c : Char) (hc : pyIsSpace c = false) :
    pyRStrip (l ++ [c]) = l ++ [c] := by
  unfold pyRStrip
  rw [List.reverse_append, show ([c] : Str).reverse = [c] from rfl,
    List.singleton_append, List.dropWhile_cons_of_neg (by simp [hc]),
    List.reverse_cons, List.reverse_reverse]

theorem pyStrip_agent_plus (e : Str) :
    pyStrip (str "agent=" ++ e) = str "agent=" ++ pyRStrip e := by
  have h1 : pyLStrip (str "agent=" ++ e) = str "agent=" ++ e := by
    show ('a' :: (str "gent=" ++ e)).dropWhile pyIsSpace = 'a' :: (str "gent=" ++ e)
    rw [List.dropWhile_cons_of_neg (by decide)]
  unfold pyStrip
  rw [h1]
  exact pyRStrip_append_fix (str "agent=") e (by decide)

theorem reKvMatch_agent (w : Str) :
    reKvMatch (str "agent=" ++ w) =
      some (str "agent", pyRStrip (w.dropWhile pyIsSpace)) := rfl

theorem applyKV_agent (v : Str) : applyKV {} (str "agent") v = {} := rfl

theorem parseLine_agent (r : Str) (hr : pyRStrip r = r) :
    parseLine {} (str "agent=" ++ r) = {} := by
  unfold parseLine
  have hline : pyStrip (str "agent=" ++ r) = str "agent=" ++ r := by
    rw [pyStrip_agent_plus, hr]
  rw [hline]
  rw [if_neg (show ¬(str "agent=" ++ r = []) from by simp [str])]
  rw [reKvMatch_agent]
  exact applyKV_agent _

theorem pySplitLinesGo_cons_other (c : Char) (cur t : Str)
    (hn : c ≠ '\n') (hr : c ≠ '\r') :
    pySplitLinesGo cur (c :: t) = pySplitLinesGo (c :: cur) t := by
  conv_lhs => unfold pySplitLinesGo
  split
  · rename_i heq; cases heq
  · rename_i heq
    injection heq with h1 _
    exact absurd h1 hr
  · rename_i heq
    injection heq with h1 _
    exact absurd h1 hr
  · rename_i heq
    injection heq with h1 _
    exact absurd h1 hn
  · rename_i heq
    injection heq with h1 h2
    rw [h1, h2]

theorem pySplitLinesGo_no_break (l : Str) (h : ∀ c ∈ l, c ≠ '\n' ∧ c ≠ '\r') :
    ∀ cur : Str, pySplitLinesGo cur l =
      if cur.reverse ++ l = [] then [] else [cur.reverse ++ l] := by
  induction l with
  | nil =>
    intro cur
    show (if cur.isEmpty then [] else [cur.reverse]) = _
    rw [List.append_nil]
    by_cases hc : cur = []
    · rw [hc]; rfl
    · rw [if_neg (by simp [hc]), if_neg (by simp [hc])]
  | cons c t ih =>
    intro cur
    have hc := h c (List.mem_cons_self c t)
    rw [pySplitLinesGo_cons_other c cur t hc.1 hc.2,
      ih (fun x hx => h x (List.mem_cons_of_mem c hx)) (c :: cur)]
    have : (c :: cur).reverse ++ t = cur.reverse ++ c :: t := by
      rw [List.reverse_cons, List.append_assoc, List.singleton_append]
    rw [this]

theorem pySplitLines_single (l : Str) (h : ∀ c ∈ l, c ≠ '\n' ∧ c ≠ '\r')
    (hne : l ≠ []) : pySplitLines l = [l] := by
  unfold pySplitLines
  rw [pySplitLinesGo_no_break l h []]
  rw [List.reverse_nil, List.nil_append, if_neg hne]

theorem pyStrip_block_fix (c : Char) (t mid : Str) (hc : pyIsSpace c = false) :
    pyStrip ((c :: t) ++ (CRM_OPEN ++ (mid ++ CRM_CLOSE))) =
      (c :: t) ++ (CRM_OPEN ++ (mid ++ CRM_CLOSE)) := by
  have hC : CRM_CLOSE = str "[/REALESTATE_CRM" ++ [']'] := rfl
  have hsplit : (c :: t) ++ (CRM_OPEN ++ (mid ++ CRM_CLOSE)) =
      ((c :: t) ++ (CRM_OPEN ++ (mid ++ str "[/REALESTATE_CRM"))) ++ [']'] := by
    rw [hC]; simp [List.append_assoc]
  unfold pyStrip
  rw [show (c :: t) ++ (CRM_OPEN ++ (mid ++ CRM_CLOSE)) =
      c :: (t ++ (CRM_OPEN ++ (mid ++ CRM_CLOSE))) from rfl]
  rw [pyLStrip_cons_not_space _ _ hc]
  rw [show c :: (t ++ (CRM_OPEN ++ (mid ++ CRM_CLOSE))) =
      (c :: t) ++ (CRM_OPEN ++ (mid ++ CRM_CLOSE)) from rfl]
  rw [hsplit, pyRStrip_last_not_space _ _ (by decide)]

theorem parseCrmBlock_shape (c : Char) (t r : Str)
    (hc : pyIsSpace c = false)
    (hP : '[' ∉ (c :: t))
    (hr : pyRStrip r = r)
    (hrn : ∀ x ∈ r, x ≠ '\n' ∧ x ≠ '\r' ∧ x ≠ '[') :
    parseCrmBlock (pyStrip ((c :: t) ++ (CRM_OPEN ++
      (('\n' :: ((str "agent=" ++ r) ++ ['\n'])) ++ CRM_CLOSE)))) = {} := by
  rw [pyStrip_block_fix c t _ hc]
  unfold parseCrmBlock
  have hmid : '[' ∉ ('\n' :: ((str "agent=" ++ r) ++ ['\n'])) := by
    intro hmem
    rcases List.mem_cons.mp hmem with h | h
    · exact absurd h (by decide)
    · rcases List.mem_append.mp h with h2 | h2
      · rcases List.mem_append.mp h2 with h3 | h3
        · exact absurd h3 (by decide)
        · exact (hrn '[' h3).2.2 rfl
      · exact absurd h2 (by decide)
  rw [extractCrmBlock_concat (c :: t) _ hP hmid]
  simp only []
  have hstrip : pyStrip ('\n' :: ((str "agent=" ++ r) ++ ['\n'])) =
      str "agent=" ++ r := by
    rw [pyStrip_cons_space _ _ (by decide), pyStrip_append_space _ _ (by decide),
      pyStrip_agent_plus, hr]
  rw [hstrip]
  rw [if_neg (show ¬(str "agent=" ++ r = []) from by simp [str])]
  have hchars : ∀ x ∈ str "agent=" ++ r, x ≠ '\n' ∧ x ≠ '\r' := by
    intro x hx
    rcases List.mem_append.mp hx with h | h
    · exact ⟨fun he => absurd (he ▸ h) (by decide),
        fun he => absurd (he ▸ h) (by decide)⟩
    · exact ⟨(hrn x h).1, (hrn x h).2.1⟩
  rw [pySplitLines_single _ hchars (by simp [str])]
  rw [List.foldl_cons, List.foldl_nil]
  exact parseLine_agent r hr

theorem parseCrmBlock_shape_empty (c : Char) (t : Str)
    (hc : pyIsSpace c = false) (hP : '[' ∉ (c :: t)) :
    parseCrmBlock (pyStrip ((c :: t) ++ (CRM_OPEN ++ (['\n'] ++ CRM_CLOSE)))) = {} := by
  rw [pyStrip_block_fix c t _ hc]
  unfold parseCrmBlock
  rw [extractCrmBlock_concat _ _ hP (by decide)]
  simp only []
  rw [show pyStrip ['\n'] = [] from rfl]
  rw [if_pos rfl]

/-- Claim C1 counterexample: the composed description of an appointment with
user text "Visita casa" and agent email "jane@x.com" decodes to the all-absent
record; in particular the agent email is NOT recovered. -/
theorem composeParse_loses_agent_email :
    parseCrmBlock (composeGoogleDescription (str "Visita casa") (str "jane@x.com")) = {} ∧
    (parseCrmBlock (composeGoogleDescription (str "Visita casa")
      (str "jane@x.com"))).agent_email ≠ some (str "jane@x.com") := by
  decide

/-- Claim C1 (corrected): the decode/encode round trip is lossless for no
field at all.  The encoder writes only an `agent=<email>` line, a key the
decoder does not recognise (it reads `agent_email=`), so for every user text
(without `[`, which would disturb the markers) and every agent email (without
line breaks or `[`) decoding the composed description yields the all-absent
record: every field of the appointment, the agent email included, is lost. -/
theorem composeParse_roundtrip_empty (userText agentEmail : Str)
    (hu : '[' ∉ userText)
    (he : ∀ c ∈ agentEmail, c ≠ '\n' ∧ c ≠ '\r' ∧ c ≠ '[') :
    parseCrmBlock (composeGoogleDescription userText agentEmail) = {} := by
  unfold composeGoogleDescription
  simp only []
  have hrn : ∀ x ∈ pyRStrip agentEmail, x ≠ '\n' ∧ x ≠ '\r' ∧ x ≠ '[' :=
    fun x hx => he x (pyRStrip_subset agentEmail x hx)
  by_cases he0 : agentEmail = []
  · rw [if_pos he0]
    rw [if_neg (show ¬(([] : Str) ≠ []) from by simp)]
    by_cases hu0 : pyStrip userText = []
    · rw [if_neg (by simp [hu0])]
      have hsh : str "RealEstate CRM\n\n" ++ (CRM_OPEN ++ '\n' :: CRM_CLOSE) =
          ('R' :: str "ealEstate CRM\n\n") ++ (CRM_OPEN ++ (['\n'] ++ CRM_CLOSE)) := by
        simp [List.append_assoc, str]
      rw [hsh]
      exact parseCrmBlock_shape_empty 'R' _ (by decide) (by decide)
    · rw [if_pos hu0]
      obtain ⟨c, t, hct⟩ := List.exists_cons_of_ne_nil hu0
      have hc : pyIsSpace c = false := pyStrip_head_not_space userText c t hct
      have hP : '[' ∉ c :: (t ++ str "\n\n") := by
        intro hmem
        rcases List.mem_cons.mp hmem with h | h
        · exact hu (pyStrip_subset userText '['
            (by rw [hct, ← h]; exact List.mem_cons_self _ _))
        · rcases List.mem_append.mp h with h2 | h2
          · exact hu (pyStrip_subset userText '['
              (by rw [hct]; exact List.mem_cons_of_mem c h2))
          · exact absurd h2 (by decide)
      have hsh : pyStrip userText ++ str "\n\n" ++ (CRM_OPEN ++ '\n' :: CRM_CLOSE) =
          (c :: (t ++ str "\n\n")) ++ (CRM_OPEN ++ (['\n'] ++ CRM_CLOSE)) := by
        rw [hct]; simp [List.append_assoc]
      rw [hsh]
      exact parseCrmBlock_shape_empty c _ hc hP
  · rw [if_neg he0, pyStrip_agent_plus]
    rw [if_pos (show str "agent=" ++ pyRStrip agentEmail ≠ [] from by simp [str])]
    by_cases hu0 : pyStrip userText = []
    · rw [if_neg (by simp [hu0])]
      have hsh : str "RealEstate CRM\n\n" ++
          (CRM_OPEN ++ '\n' :: ((str "agent=" ++ pyRStrip agentEmail) ++ '\n' :: CRM_CLOSE)) =
          ('R' :: str "ealEstate CRM\n\n") ++ (CRM_OPEN ++
            (('\n' :: ((str "agent=" ++ pyRStrip agentEmail) ++ ['\n'])) ++ CRM_CLOSE)) := by
        simp [List.append_assoc, str]
      rw [hsh]
      exact parseCrmBlock_shape 'R' _ _ (by decide) (by decide)
        (pyRStrip_idem agentEmail) hrn
    · rw [if_pos hu0]
      obtain ⟨c, t, hct⟩ := List.exists_cons_of_ne_nil hu0
      have hc : pyIsSpace c = false := pyStrip_head_not_space userText c t hct
      have hP : '[' ∉ c :: (t ++ str "\n\n") := by
        intro hmem
        rcases List.mem_cons.mp hmem with h | h
        · exact hu (pyStrip_subset userText '['
            (by rw [hct, ← h]; exact List.mem_cons_self _ _))
        · rcases List.mem_append.mp h with h2 | h2
          · exact hu (pyStrip_subset userText '['
              (by rw [hct]; exact List.mem_cons_of_mem c h2))
          · exact absurd h2 (by decide)
      have hsh : pyStrip userText ++ str "\n\n" ++
          (CRM_OPEN ++ '\n' :: ((str "agent=" ++ pyRStrip agentEmail) ++ '\n' :: CRM_CLOSE)) =
          (c :: (t ++ str "\n\n")) ++ (CRM_OPEN ++
            (('\n' :: ((str "agent=" ++ pyRStrip agentEmail) ++ ['\n'])) ++ CRM_CLOSE)) := by
        rw [hct]; simp [List.append_assoc]
      rw [hsh]
      exact parseCrmBlock_shape c _ _ hc hP (pyRStrip_idem agentEmail) hrn

/-- Witness for `composeParse_roundtrip_empty` at concrete inputs. -/
theorem composeParse_roundtrip_empty_witness :
    ('[' ∉ str "Visita casa") ∧
    (∀ c ∈ str "Jane@X.com", c ≠ '\n' ∧ c ≠ '\r' ∧ c ≠ '[') ∧
    parseCrmBlock (composeGoogleDescription (str "Visita casa") (str "Jane@X.com")) = {} :=
  ⟨by decide, by decide,
    composeParse_roundtrip_empty (str "Visita casa") (str "Jane@X.com")
      (by decide) (by decide)⟩
